import Mathlib

/-!
# Verification of the RogueDex repository cores

Shallow embedding of the three cores of the RogueDex repository —
the picoNet reliability layer (`picoNet/connection.py`,
`picoNet/serializer.py`), the battle driver
(`battledex_engine/battle.py`, `battledex_engine/event_queue.py`) and the
RogueScript front end (`roguescript/parser.py`, `roguescript/compiler.py`)
— together with theorems checking the specification's claims against it.

Conventions used throughout the embedding:
* Python `int` is `Int` (or `Nat` where the source value is always
  non-negative); Python `%` on ints is `Int.emod`.
* Python `bytes` is `List Nat` (each entry a byte value).
* Python `float` timestamps are `ℚ`; an IEEE-754 double stored by the
  serializer is carried as its 8-byte big-endian representation, which is
  exactly what `struct.pack('>d', ·)`/`struct.unpack` move around.
* A Python function that can raise returns `Except String α`; the message
  is the exception's text.
* Python `dict` used as a finite map is an association list in insertion
  order (CPython dicts preserve insertion order).
-/

namespace RogueDex

/-! ## picoNet: sequence-number comparison (`picoNet/connection.py`)

`is_sequence_greater` from `connection.py` lines 30-36, verbatim over
Python ints. -/

def isSequenceGreater (s1 s2 : Int) : Bool :=
  ((s1 > s2) && (s1 - s2 ≤ 32768)) ||
  ((s1 < s2) && (s2 - s1 > 32768))

/-! ## picoNet: ACK processing (`Connection._process_acks`)

The unacked table `self._sent_packets : Dict[int, Tuple[float, bytes]]`
is an association list from sequence number to (send time, packed bytes).
`del` on a dict key is `List.filter` on the key. -/

abbrev SentTable := List (Nat × (ℚ × List Nat))

structure AckState where
  sentPackets : SentTable
  rtt : ℚ
  deriving Repr

/-- `handle_ack` (the inner function of `_process_acks`): if `seq` is in
the table, fold the RTT sample into the EWMA and delete the entry. -/
def handleAck (now : ℚ) (st : AckState) (seq : Nat) : AckState :=
  match st.sentPackets.lookup seq with
  | some (sentTime, _) =>
      let measuredRtt := max (1/1000 : ℚ) (now - sentTime)
      { sentPackets := st.sentPackets.filter (fun p => p.1 != seq),
        rtt := st.rtt * (9/10) + measuredRtt * (1/10) }
  | none => st

/-- The sequences acknowledged by the bitfield loop of `_process_acks`:
for each bit `i` set in the 16-bit field, `(ack - 1 - i) % 65536`
(Python `%` on a possibly negative int, hence `Int.emod`). -/
def bitfieldSeqs (ack bitfield : Nat) : List Nat :=
  ((List.range 16).filter (fun i => (bitfield >>> i) &&& 1 = 1)).map
    (fun i => (((ack : Int) - 1 - (i : Nat)).emod 65536).toNat)

/-- `Connection._process_acks` (lines 252-267): ack the direct sequence,
then every sequence named by a set bit of the bitfield. -/
def processAcks (now : ℚ) (st : AckState) (ack bitfield : Nat) : AckState :=
  (bitfieldSeqs ack bitfield).foldl (handleAck now) (handleAck now st ack)

section AckLemmas

theorem lookup_filter_ne (l : SentTable) (k s : Nat) :
    (l.filter (fun p => p.1 != k)).lookup s =
      if s = k then none else l.lookup s := by
  induction l with
  | nil => simp [List.lookup]
  | cons hd tl ih =>
    rcases hd with ⟨k1, v1⟩
    by_cases h1 : k1 = k
    · subst h1
      have hpred : ((k1, v1).1 != k1) = false := by simp
      rw [List.filter_cons, hpred]
      simp only [Bool.false_eq_true, if_false, ih]
      by_cases hs : s = k1
      · simp [hs]
      · have hbeq : (s == k1) = false := by simpa using hs
        simp [List.lookup, hbeq, hs]
    · have hpred : ((k1, v1).1 != k) = true := by simpa using h1
      rw [List.filter_cons, hpred]
      simp only [if_true]
      by_cases hs1 : s = k1
      · subst hs1
        have hsk : ¬ s = k := h1
        simp [List.lookup, hsk]
      · have hbeq : (s == k1) = false := by simpa using hs1
        simp [List.lookup, hbeq, ih]

theorem lookup_handleAck (now : ℚ) (st : AckState) (q s : Nat) :
    (handleAck now st q).sentPackets.lookup s =
      if s = q then none else st.sentPackets.lookup s := by
  unfold handleAck
  cases hq : st.sentPackets.lookup q with
  | some v =>
    simp only
    rw [lookup_filter_ne]
  | none =>
    simp only
    by_cases hs : s = q
    · simp [hs, hq]
    · simp [hs]

theorem lookup_foldl_handleAck (now : ℚ) (L : List Nat) (st : AckState) (s : Nat) :
    (L.foldl (handleAck now) st).sentPackets.lookup s =
      if s ∈ L then none else st.sentPackets.lookup s := by
  induction L generalizing st with
  | nil => simp
  | cons hd tl ih =>
    simp only [List.foldl, ih, lookup_handleAck]
    by_cases h1 : s ∈ tl
    · simp [h1]
    · by_cases h2 : s = hd <;> simp [h1, h2]

theorem mem_bitfieldSeqs (ack b s : Nat) :
    s ∈ bitfieldSeqs ack b ↔
      ∃ i ∈ Finset.range 16, (b >>> i) &&& 1 = 1 ∧
        s = (((ack : Int) - 1 - (i : Nat)).emod 65536).toNat := by
  rw [bitfieldSeqs, List.mem_map]
  constructor
  · rintro ⟨i, hmem, hs⟩
    rw [List.mem_filter, List.mem_range] at hmem
    exact ⟨i, Finset.mem_range.mpr hmem.1, of_decide_eq_true hmem.2, hs.symm⟩
  · rintro ⟨i, hi, hbit, hs⟩
    refine ⟨i, ?_, hs.symm⟩
    rw [List.mem_filter, List.mem_range]
    exact ⟨Finset.mem_range.mp hi, decide_eq_true hbit⟩

end AckLemmas

/-- **C4.** `is_sequence_greater(s1, s2)` on 16-bit sequence numbers is true
iff (s1 > s2 and s1 − s2 ≤ 32768) or (s1 < s2 and s2 − s1 > 32768); in
particular `is_sequence_greater(1, 65534)` is true and
`is_sequence_greater(32800, 1)` is false. -/
theorem claim_C4 :
    (∀ s1 s2 : Nat, s1 < 65536 → s2 < 65536 →
      (isSequenceGreater s1 s2 = true ↔
        ((s1 > s2 ∧ s1 - s2 ≤ 32768) ∨ (s1 < s2 ∧ s2 - s1 > 32768)))) ∧
    isSequenceGreater 1 65534 = true ∧ isSequenceGreater 32800 1 = false := by
  refine ⟨?_, by decide, by decide⟩
  intro s1 s2 _ _
  simp only [isSequenceGreater, Bool.or_eq_true, Bool.and_eq_true,
    decide_eq_true_eq]
  omega

theorem claim_C4_witness :
    isSequenceGreater 3 2 = true :=
  (claim_C4.1 3 2 (by decide) (by decide)).mpr (Or.inl ⟨by decide, by decide⟩)

/-- **C5.** Processing an ACK with value `ack` and bitfield `b` removes from
the unacked (sent-packets) table exactly the entry for `ack` together with,
for every bit `i < 16` set in `b`, the entry for `(ack − 1 − i) mod 65536`;
every other entry is left unchanged. -/
theorem claim_C5 (now : ℚ) (st : AckState) (ack bitfield s : Nat) :
    ((processAcks now st ack bitfield).sentPackets).lookup s =
      if s = ack ∨ ∃ i ∈ Finset.range 16, (bitfield >>> i) &&& 1 = 1 ∧
           s = (((ack : Int) - 1 - (i : Nat)).emod 65536).toNat
      then none
      else st.sentPackets.lookup s := by
  unfold processAcks
  rw [lookup_foldl_handleAck, lookup_handleAck]
  by_cases hmem : s ∈ bitfieldSeqs ack bitfield
  · have hcond : s = ack ∨ ∃ i ∈ Finset.range 16, (bitfield >>> i) &&& 1 = 1 ∧
        s = (((ack : Int) - 1 - (i : Nat)).emod 65536).toNat :=
      Or.inr ((mem_bitfieldSeqs ack bitfield s).mp hmem)
    rw [if_pos hmem, if_pos hcond]
  · rw [if_neg hmem]
    by_cases hack : s = ack
    · rw [if_pos hack, if_pos (Or.inl hack)]
    · have hcond : ¬(s = ack ∨ ∃ i ∈ Finset.range 16,
          (bitfield >>> i) &&& 1 = 1 ∧
          s = (((ack : Int) - 1 - (i : Nat)).emod 65536).toNat) := by
        rw [not_or]
        exact ⟨hack, fun h => hmem ((mem_bitfieldSeqs ack bitfield s).mpr h)⟩
      rw [if_neg hack, if_neg hcond]

/-! ## picoNet: payload serializer (`picoNet/serializer.py`)

Python strings are represented by their UTF-8 byte sequences (`List Nat`),
which is exactly the form in which the serializer moves them; an IEEE-754
double is carried as the 8 bytes `struct.pack('>d', ·)` produces for it.
The three mutually inductive types mirror the recursive shape of the
Python values accepted by `_serialize_value` (dict values / list items /
nested dicts). -/

mutual
inductive SValue where
  | null
  | boolv (b : Bool)
  | int32 (n : Int)
  | float64 (b8 : List Nat)
  | strv (bs : List Nat)
  | list (xs : SList)
  | dict (kvs : SDict)
  deriving DecidableEq
inductive SList where
  | nil
  | cons (v : SValue) (tl : SList)
  deriving DecidableEq
inductive SDict where
  | nil
  | cons (key : List Nat) (v : SValue) (tl : SDict)
  deriving DecidableEq
end

def SList.length : SList → Nat
  | .nil => 0
  | .cons _ tl => 1 + tl.length

def SDict.length : SDict → Nat
  | .nil => 0
  | .cons _ _ tl => 1 + tl.length

/-- The `KNOWN_KEYS` codebook, keys given as their UTF-8 (ASCII) bytes:
`command`, `player_id`, `position`, `velocity`, `is_running`, `tick`,
`x`, `y`, `hex`, `color`. -/
def KNOWN_KEYS : List (List Nat × Nat) :=
  [([99, 111, 109, 109, 97, 110, 100], 0x01),
   ([112, 108, 97, 121, 101, 114, 95, 105, 100], 0x02),
   ([112, 111, 115, 105, 116, 105, 111, 110], 0x03),
   ([118, 101, 108, 111, 99, 105, 116, 121], 0x04),
   ([105, 115, 95, 114, 117, 110, 110, 105, 110, 103], 0x05),
   ([116, 105, 99, 107], 0x06),
   ([120], 0x07),
   ([121], 0x08),
   ([104, 101, 120], 0x09),
   ([99, 111, 108, 111, 114], 0x0A)]

/-- `KNOWN_KEYS_INV`, the reverse mapping. -/
def KNOWN_KEYS_INV : List (Nat × List Nat) :=
  KNOWN_KEYS.map (fun p => (p.2, p.1))

/-- `struct.pack('>H', n)`: two big-endian bytes, `struct.error` when the
value does not fit in 16 bits. -/
def pack16 (n : Nat) : Except String (List Nat) :=
  if n < 65536 then .ok [n / 256, n % 256] else .error "struct.error"

/-- `struct.pack('>i', n)`: four big-endian bytes of a signed 32-bit int,
`struct.error` when out of range. -/
def pack32s (n : Int) : Except String (List Nat) :=
  if -2147483648 ≤ n ∧ n < 2147483648 then
    .ok (let m := (n.emod 4294967296).toNat
         [m / 16777216 % 256, m / 65536 % 256, m / 256 % 256, m % 256])
  else .error "struct.error"

/-- `struct.unpack('>i', b)` on exactly four bytes. -/
def unpack32s (b : List Nat) : Except String Int :=
  match b with
  | [b1, b2, b3, b4] =>
      let m : Nat := ((b1 * 256 + b2) * 256 + b3) * 256 + b4
      .ok (if m < 2147483648 then (m : Int) else (m : Int) - 4294967296)
  | _ => .error "struct.error"

mutual
/-- The per-entry body of `serialize`'s key/value loop (lines 67-81):
known keys become `08 id`, unknown keys `09 len key-bytes`, each followed
by the serialized value. -/
def serializeDictBody : SDict → Except String (List Nat)
  | .nil => .ok []
  | .cons k v tl => do
      let kb ← (match KNOWN_KEYS.lookup k with
                | some kid => pure [0x08, kid]
                | none => do
                    let len ← pack16 k.length
                    pure (0x09 :: (len ++ k)))
      let vb ← serializeValue v
      let rest ← serializeDictBody tl
      pure (kb ++ vb ++ rest)
termination_by structural d => d

def serializeListBody : SList → Except String (List Nat)
  | .nil => .ok []
  | .cons v tl => do
      let vb ← serializeValue v
      let rest ← serializeListBody tl
      pure (vb ++ rest)
termination_by structural l => l

/-- `_serialize_value` (lines 85-113). -/
def serializeValue : SValue → Except String (List Nat)
  | .null => .ok [0x00]
  | .boolv b => .ok [if b then 0x02 else 0x01]
  | .int32 n => do
      let nb ← pack32s n
      pure (0x03 :: nb)
  | .float64 b8 => .ok (0x04 :: b8)
  | .strv bs => do
      let len ← pack16 bs.length
      pure (0x05 :: (len ++ bs))
  | .list xs => do
      let len ← pack16 xs.length
      let body ← serializeListBody xs
      pure (0x06 :: (len ++ body))
  | .dict kvs => do
      -- the source calls back into `serialize`; its body is inlined here
      -- so that the recursion stays structural
      let len ← pack16 kvs.length
      let body ← serializeDictBody kvs
      pure (0x07 :: (len ++ body))
termination_by structural v => v
end

/-- `serialize` (lines 50-83): tag `07`, 2-byte entry count, then the
entries. -/
def serialize (kvs : SDict) : Except String (List Nat) := do
  let len ← pack16 kvs.length
  let body ← serializeDictBody kvs
  pure (0x07 :: (len ++ body))

/-- `stream.read(2)` + `struct.unpack('>H', ·)`: `struct.error` when fewer
than two bytes remain. -/
def read16 : List Nat → Except String (Nat × List Nat)
  | b1 :: b2 :: rest => .ok (b1 * 256 + b2, rest)
  | _ => .error "struct.error"

/-- The key-reading branch of `deserialize`'s loop (lines 130-141). -/
def deserKey : List Nat → Except String (List Nat × List Nat)
  | [] => .error "IndexError"
  | kt :: rest =>
      if kt = 0x08 then
        match rest with
        | [] => .error "IndexError"
        | kid :: r =>
            match KNOWN_KEYS_INV.lookup kid with
            | some k => .ok (k, r)
            | none => .error "Invalid known key ID found."
      else if kt = 0x09 then do
        let (len, r) ← read16 rest
        .ok (r.take len, r.drop len)
      else .error "Invalid or unknown key tag in stream."

mutual
/-- `_deserialize_value` (lines 150-182).  The fuel argument is a modeling
device for termination only: it strictly decreases on every recursive
call and the `deserialize` wrapper supplies more than any input can
consume, so the `"fuel"` branch is unreachable from the wrapper.  Note the
`TAG_DICT` case: the source rewinds one byte and calls `deserialize` on
`stream.read()` — the entire remaining stream — so the leftover after a
nested dict is always empty. -/
def deserValue : Nat → List Nat → Except String (SValue × List Nat)
  | 0, _ => .error "fuel"
  | fuel + 1, bs =>
      match bs with
      | [] => .error "Incomplete stream: trying to read a value tag."
      | tag :: rest =>
        if tag = 0x00 then .ok (.null, rest)
        else if tag = 0x01 then .ok (.boolv false, rest)
        else if tag = 0x02 then .ok (.boolv true, rest)
        else if tag = 0x03 then do
          let n ← unpack32s (rest.take 4)
          .ok (.int32 n, rest.drop 4)
        else if tag = 0x04 then
          if rest.length < 8 then .error "struct.error"
          else .ok (.float64 (rest.take 8), rest.drop 8)
        else if tag = 0x05 then do
          let (len, r) ← read16 rest
          .ok (.strv (r.take len), r.drop len)
        else if tag = 0x06 then do
          let (n, r) ← read16 rest
          let (xs, r2) ← deserList fuel n r
          .ok (.list xs, r2)
        else if tag = 0x07 then do
          let d ← deserTop fuel bs
          .ok (.dict d, [])
        else .error "Unknown type tag in stream"
termination_by structural fuel _ => fuel

def deserList : Nat → Nat → List Nat → Except String (SList × List Nat)
  | _, 0, bs => .ok (.nil, bs)
  | 0, _ + 1, _ => .error "fuel"
  | fuel + 1, n + 1, bs => do
      let (v, r) ← deserValue fuel bs
      let (vs, r2) ← deserList fuel n r
      .ok (.cons v vs, r2)
termination_by structural fuel _ _ => fuel

def deserPairs : Nat → Nat → List Nat → Except String (SDict × List Nat)
  | _, 0, bs => .ok (.nil, bs)
  | 0, _ + 1, _ => .error "fuel"
  | fuel + 1, n + 1, bs => do
      let (k, r) ← deserKey bs
      let (v, r2) ← deserValue fuel r
      let (kvs, r3) ← deserPairs fuel n r2
      .ok (.cons k v kvs, r3)
termination_by structural fuel _ _ => fuel

/-- `deserialize` (lines 116-147): requires the dict tag, then reads the
announced number of entries and discards any leftover bytes.  `struct`
and index errors raised inside the entry loop are converted to
`ValueError("Malformed or incomplete data stream.")` by the source's
`try`/`except`; errors raised as `ValueError` pass through unchanged. -/
def deserTop : Nat → List Nat → Except String SDict
  | 0, _ => .error "fuel"
  | fuel + 1, bs =>
      match bs with
      | [] => .error "IndexError"
      | tag :: rest =>
        if tag ≠ 0x07 then
          .error "Data stream does not start with a dictionary tag."
        else
          match (do
            let (n, r) ← read16 rest
            let (kvs, _) ← deserPairs fuel n r
            .ok kvs : Except String SDict) with
          | .error e =>
              .error (if e = "struct.error" ∨ e = "IndexError" then
                        "Malformed or incomplete data stream." else e)
          | .ok kvs => .ok kvs
termination_by structural fuel _ => fuel
end

/-- Entry point used by the connection layer; the fuel is an upper bound
on the recursion depth reachable while parsing `bs`. -/
def deserialize (bs : List Nat) : Except String SDict :=
  deserTop (bs.length + 1) bs

/-- The payload `{"a": {"x": 1}, "b": 2}`: a nested dictionary appearing
as a value that is *not* the last item of its enclosing dictionary
(`"a"` and `"b"` are the bytes `[97]` and `[98]`; `"x"` is `[120]`,
which is in the codebook as id `0x07`). -/
def exC10 : SDict :=
  .cons [97] (.dict (.cons [120] (.int32 1) .nil)) (.cons [98] (.int32 2) .nil)

/-- The bytes `serialize` produces for `exC10`. -/
def exC10bytes : List Nat :=
  [7, 0, 2, 9, 0, 1, 97, 7, 0, 1, 8, 7, 3, 0, 0, 0, 1, 9, 0, 1, 98, 3, 0, 0, 0, 2]

/-- **C10.** The claim states `deserialize(serialize(d))` succeeds and
returns `d` for every payload built from the supported value types,
including when a nested dictionary is not the last item of its
container.  The code fails on exactly that case — the repository's own
test `test_mixed_known_and_unknown_keys` asserts such a round-trip and
fails — because `_deserialize_value`'s `TAG_DICT` branch consumes the
entire remaining stream.  Evaluating at the failing input
`{"a": {"x": 1}, "b": 2}`: serialization succeeds, and deserializing
the result raises `ValueError("Malformed or incomplete data stream.")`
instead of returning the original dictionary. -/
theorem claim_C10 :
    serialize exC10 = .ok exC10bytes ∧
    deserialize exC10bytes = .error "Malformed or incomplete data stream." :=
  ⟨rfl, rfl⟩

/-! ## picoNet: the connection receive path
(`Connection._process_received_packet`, lines 221-250)

The connection fields touched by packet reception: the unacked table and
RTT (via `_process_acks`), the latest remote sequence number (`-1` until
something is received), the 16-bit incoming ack bitfield, the dedup
window (`collections.deque(maxlen=32)`, oldest element first) and the
received-payload queue. -/

structure PacketHeader where
  protocolId : Nat
  sequence : Nat
  ack : Nat
  ackBitfield : Nat
  deriving Repr, DecidableEq

structure Packet where
  header : PacketHeader
  payload : List Nat
  deriving Repr, DecidableEq

structure ConnState where
  sentPackets : SentTable
  rtt : ℚ
  remoteSequenceNumber : Int
  ackBitfield : Nat
  receivedSequences : List Nat
  receivedPayloads : List SDict

/-- `_process_acks` acting on the full connection state. -/
def processAcksConn (now : ℚ) (st : ConnState) (ack bitfield : Nat) : ConnState :=
  let a := processAcks now ⟨st.sentPackets, st.rtt⟩ ack bitfield
  { st with sentPackets := a.sentPackets, rtt := a.rtt }

/-- `deque(maxlen=32).append`: drop the oldest element when full. -/
def dequeAppend32 (w : List Nat) (x : Nat) : List Nat :=
  if w.length < 32 then w ++ [x] else (w.drop 1) ++ [x]

/-- The latest-remote-sequence / ack-bitfield tracking tail of
`_process_received_packet` (lines 237-250).  The shift amounts come from
Python's `%`, so `diff` lands in `[0, 65536)`; when `diff` is 0 — the
incoming sequence is congruent to the stored latest modulo 65536 even
though it is no longer in the dedup window — the source evaluates
`1 << (diff - 1)`, i.e. `1 << -1`, and raises
`ValueError: negative shift count`, leaving the bitfield and the stored
latest sequence as they were.  A raised error aborts the method but the
mutations already made to the connection object persist, so an error
carries the state at the raise.  The assignment
`self._remote_sequence_number = seq` (line 245) runs only when no
exception was raised, so it is folded into each non-raising branch. -/
def updateSeqTracking (st : ConnState) (seq : Nat) :
    Except (String × ConnState) ConnState :=
  if st.remoteSequenceNumber = -1 ∨
      isSequenceGreater (seq : Int) st.remoteSequenceNumber then
    if st.remoteSequenceNumber ≠ -1 then
      if (((seq : Int) - st.remoteSequenceNumber) % 65536).toNat ≤ 16 then
        if (((seq : Int) - st.remoteSequenceNumber) % 65536).toNat = 0 then
          .error ("ValueError: negative shift count", st)
        else .ok { st with
            ackBitfield :=
              ((st.ackBitfield <<<
                  (((seq : Int) - st.remoteSequenceNumber) % 65536).toNat) |||
               (1 <<<
                  ((((seq : Int) - st.remoteSequenceNumber) % 65536).toNat - 1)))
                &&& 0xFFFF
            remoteSequenceNumber := (seq : Int) }
      else .ok { st with
          ackBitfield := 0
          remoteSequenceNumber := (seq : Int) }
    else .ok { st with remoteSequenceNumber := (seq : Int) }
  else
    if ((st.remoteSequenceNumber - (seq : Int)) % 65536).toNat ≤ 16 then
      if ((st.remoteSequenceNumber - (seq : Int)) % 65536).toNat = 0 then
        .error ("ValueError: negative shift count", st)
      else .ok { st with
          ackBitfield :=
            (st.ackBitfield |||
             (1 <<< (((st.remoteSequenceNumber - (seq : Int)) % 65536).toNat - 1)))
              &&& 0xFFFF }
    else .ok st

/-- `Connection._process_received_packet` (lines 221-250): process the
piggy-backed ACKs, drop ack-only packets (sequence 0, empty payload),
drop duplicates still in the dedup window, otherwise record the sequence,
enqueue the deserialized payload (if non-empty), and update the latest
remote sequence / ack bitfield via `updateSeqTracking`.  A `ValueError`
(from `deserialize` or from the negative shift) propagates out of the
method with the mutations made so far kept on the connection object: the
error value carries that state. -/
def processReceivedPacket (now : ℚ) (st : ConnState) (p : Packet) :
    Except (String × ConnState) ConnState :=
  let seq := p.header.sequence
  let st := processAcksConn now st p.header.ack p.header.ackBitfield
  if seq = 0 ∧ p.payload = [] then .ok st
  else if seq ∈ st.receivedSequences then .ok st
  else
    let st := { st with receivedSequences := dequeAppend32 st.receivedSequences seq }
    if p.payload.isEmpty then updateSeqTracking st seq
    else
      match deserialize p.payload with
      | .error e => .error (e, st)
      | .ok v =>
          updateSeqTracking
            { st with receivedPayloads := st.receivedPayloads ++ [v] } seq

theorem processAcksConn_receivedSequences (now : ℚ) (s : ConnState) (a b : Nat) :
    (processAcksConn now s a b).receivedSequences = s.receivedSequences := rfl

theorem processAcksConn_receivedPayloads (now : ℚ) (s : ConnState) (a b : Nat) :
    (processAcksConn now s a b).receivedPayloads = s.receivedPayloads := rfl

theorem processAcksConn_remoteSequenceNumber (now : ℚ) (s : ConnState) (a b : Nat) :
    (processAcksConn now s a b).remoteSequenceNumber = s.remoteSequenceNumber := rfl

theorem processAcksConn_ackBitfield (now : ℚ) (s : ConnState) (a b : Nat) :
    (processAcksConn now s a b).ackBitfield = s.ackBitfield := rfl

/-- Processing a packet whose sequence is already in the dedup window only
runs `_process_acks`: both the ack-only early return and the duplicate
early return leave everything except the unacked table and the RTT
untouched. -/
theorem dupProcessing (now : ℚ) (st2 : ConnState) (p : Packet)
    (hmem : p.header.sequence ∈ st2.receivedSequences) :
    processReceivedPacket now st2 p =
      .ok (processAcksConn now st2 p.header.ack p.header.ackBitfield) := by
  unfold processReceivedPacket
  by_cases h0 : p.header.sequence = 0 ∧ p.payload = []
  · rw [if_pos h0]
  · rw [if_neg h0, processAcksConn_receivedSequences, if_pos hmem]

theorem mem_dequeAppend32 (w : List Nat) (x : Nat) : x ∈ dequeAppend32 w x := by
  unfold dequeAppend32
  split <;> simp

/-- `updateSeqTracking` succeeds — and leaves the payload queue and the
dedup window alone — whenever the sequence values are the 16-bit ones
the protocol produces (`seq`, and the stored latest unless it is the
initial `-1`, lie in `[0, 65536)`) and the incoming sequence differs
from the stored latest.  (At equality the source raises
`ValueError: negative shift count` from `1 << -1`.) -/
theorem updateSeqTracking_payloads_ok (st : ConnState) (seq : Nat)
    (hseq16 : seq < 65536)
    (hrem : -1 ≤ st.remoteSequenceNumber)
    (hrem16 : st.remoteSequenceNumber < 65536)
    (hne : (seq : Int) ≠ st.remoteSequenceNumber) :
    ∃ st', updateSeqTracking st seq = .ok st' ∧
      st'.receivedPayloads = st.receivedPayloads ∧
      st'.receivedSequences = st.receivedSequences := by
  unfold updateSeqTracking
  by_cases hg : st.remoteSequenceNumber = -1 ∨
      isSequenceGreater (seq : Int) st.remoteSequenceNumber = true
  · rw [if_pos hg]
    by_cases hr1 : st.remoteSequenceNumber = -1
    · rw [if_neg (not_not.mpr hr1)]
      exact ⟨_, rfl, rfl, rfl⟩
    · rw [if_pos hr1]
      have h0g : ¬((((seq : Int) - st.remoteSequenceNumber) % 65536).toNat
          = 0) := by omega
      by_cases hd16 : (((seq : Int) - st.remoteSequenceNumber) % 65536).toNat ≤ 16
      · rw [if_pos hd16, if_neg h0g]
        exact ⟨_, rfl, rfl, rfl⟩
      · rw [if_neg hd16]
        exact ⟨_, rfl, rfl, rfl⟩
  · rw [if_neg hg]
    have hr1 : ¬(st.remoteSequenceNumber = -1) := fun h => hg (Or.inl h)
    have h0n : ¬(((st.remoteSequenceNumber - (seq : Int)) % 65536).toNat
        = 0) := by omega
    by_cases hd16 : ((st.remoteSequenceNumber - (seq : Int)) % 65536).toNat ≤ 16
    · rw [if_pos hd16, if_neg h0n]
      exact ⟨_, rfl, rfl, rfl⟩
    · rw [if_neg hd16]
      exact ⟨_, rfl, rfl, rfl⟩

/-- The exact outcome of `updateSeqTracking` when a stored latest remote
sequence exists, both sequence values are 16-bit, and the incoming one
differs from the stored latest — the situation the two branches of
lines 237-250 are written for.  The excluded `diff = 0` case (incoming
equal to the stored latest modulo 65536) makes the source raise
`ValueError: negative shift count`. -/
theorem updateSeqTracking_spec (st : ConnState) (seq : Nat)
    (hseq16 : seq < 65536)
    (hrem0 : 0 ≤ st.remoteSequenceNumber)
    (hrem16 : st.remoteSequenceNumber < 65536)
    (hne : (seq : Int) ≠ st.remoteSequenceNumber) :
    ∃ st', updateSeqTracking st seq = .ok st' ∧
      (isSequenceGreater (seq : Int) st.remoteSequenceNumber = true →
        st'.remoteSequenceNumber = (seq : Int) ∧
        ((((seq : Int) - st.remoteSequenceNumber) % 65536).toNat ≤ 16 →
          st'.ackBitfield =
            ((st.ackBitfield <<<
                (((seq : Int) - st.remoteSequenceNumber) % 65536).toNat) |||
             (1 <<<
                ((((seq : Int) - st.remoteSequenceNumber) % 65536).toNat - 1)))
              &&& 0xFFFF ∧
          st'.ackBitfield < 65536) ∧
        (16 < (((seq : Int) - st.remoteSequenceNumber) % 65536).toNat →
          st'.ackBitfield = 0)) ∧
      (isSequenceGreater (seq : Int) st.remoteSequenceNumber = false →
        st'.remoteSequenceNumber = st.remoteSequenceNumber ∧
        (((st.remoteSequenceNumber - (seq : Int)) % 65536).toNat ≤ 16 →
          st'.ackBitfield =
            (st.ackBitfield |||
             (1 <<<
                (((st.remoteSequenceNumber - (seq : Int)) % 65536).toNat - 1)))
              &&& 0xFFFF ∧
          st'.ackBitfield < 65536)) := by
  have hr1 : st.remoteSequenceNumber ≠ -1 := by omega
  unfold updateSeqTracking
  by_cases hgt : isSequenceGreater (seq : Int) st.remoteSequenceNumber = true
  · rw [if_pos (Or.inr hgt), if_pos hr1]
    have h0g : ¬((((seq : Int) - st.remoteSequenceNumber) % 65536).toNat
        = 0) := by omega
    by_cases hd16 : (((seq : Int) - st.remoteSequenceNumber) % 65536).toNat ≤ 16
    · rw [if_pos hd16, if_neg h0g]
      exact ⟨_, rfl, fun _ => ⟨rfl, fun _ => ⟨rfl, Nat.lt_succ_of_le Nat.and_le_right⟩,
        fun h16 => absurd hd16 (Nat.not_le.mpr h16)⟩,
        fun hf => absurd hgt (by simp [hf])⟩
    · rw [if_neg hd16]
      exact ⟨_, rfl, fun _ => ⟨rfl, fun h16 => absurd h16 hd16, fun _ => rfl⟩,
        fun hf => absurd hgt (by simp [hf])⟩
  · have hgt' : isSequenceGreater (seq : Int) st.remoteSequenceNumber = false := by
      simpa using hgt
    rw [if_neg (by simp [hr1, hgt'])]
    have h0n : ¬(((st.remoteSequenceNumber - (seq : Int)) % 65536).toNat
        = 0) := by omega
    by_cases hd16 : ((st.remoteSequenceNumber - (seq : Int)) % 65536).toNat ≤ 16
    · rw [if_pos hd16, if_neg h0n]
      exact ⟨_, rfl, fun ht => absurd ht (by simp [hgt']),
        fun _ => ⟨rfl, fun _ => ⟨rfl, Nat.lt_succ_of_le Nat.and_le_right⟩⟩⟩
    · rw [if_neg hd16]
      exact ⟨_, rfl, fun ht => absurd ht (by simp [hgt']),
        fun _ => ⟨rfl, fun h16 => absurd h16 hd16⟩⟩

/-- Processing a fresh (not-in-window) packet with a non-empty,
deserializable payload enqueues the payload and records the sequence,
provided the sequence values are the protocol's 16-bit ones and the
incoming sequence differs from the stored latest (at equality the
source raises `ValueError` from `1 << -1`). -/
theorem freshProcessing (now : ℚ) (st : ConnState) (p : Packet) (v : SDict)
    (hfresh : p.header.sequence ∉ st.receivedSequences)
    (hpay : p.payload ≠ [])
    (hdeser : deserialize p.payload = .ok v)
    (hseq16 : p.header.sequence < 65536)
    (hrem : -1 ≤ st.remoteSequenceNumber)
    (hrem16 : st.remoteSequenceNumber < 65536)
    (hne : (p.header.sequence : Int) ≠ st.remoteSequenceNumber) :
    ∃ st1, processReceivedPacket now st p = .ok st1 ∧
      st1.receivedPayloads = st.receivedPayloads ++ [v] ∧
      st1.receivedSequences = dequeAppend32 st.receivedSequences p.header.sequence := by
  unfold processReceivedPacket
  rw [if_neg (fun h => hpay h.2), processAcksConn_receivedSequences, if_neg hfresh]
  have hnemp : p.payload.isEmpty = false := by
    cases hp : p.payload with
    | nil => exact absurd hp hpay
    | cons a l => rfl
  rw [hnemp]
  simp only [Bool.false_eq_true, if_false, hdeser]
  obtain ⟨st1, hrun, hp, hs⟩ :=
    updateSeqTracking_payloads_ok
      ⟨(processAcksConn now st p.header.ack p.header.ackBitfield).sentPackets,
       (processAcksConn now st p.header.ack p.header.ackBitfield).rtt,
       st.remoteSequenceNumber, st.ackBitfield,
       dequeAppend32 st.receivedSequences p.header.sequence,
       st.receivedPayloads ++ [v]⟩
      p.header.sequence hseq16 hrem hrem16 hne
  exact ⟨st1, hrun, hp, hs⟩

/-- **C6.** Receiving an application datagram a second time while its
sequence is still in the dedup window is a no-op for delivery state: the
first processing enqueues the deserialized payload exactly once and puts
the sequence in the window, and any later processing of the same packet
from a state whose window still holds the sequence leaves the
received-payload queue, the remote sequence number, the ack bitfield and
the window itself unchanged.  (The claim's "fewer than 32 distinct other
sequences received in between" is precisely what keeps the sequence in
the `deque(maxlen=32)` window, stated here as the membership
hypothesis.)  The first processing additionally assumes the sequence
values are the protocol's 16-bit ones and that the incoming sequence
differs from the stored latest: when a sequence equal to the stored
latest arrives after being evicted from the window, the source instead
raises `ValueError: negative shift count` from `1 << -1` at the
`diff = 0` shift, which the model reflects as the error branch of
`updateSeqTracking`. -/
theorem claim_C6 (now now2 : ℚ) (st : ConnState) (p : Packet) (v : SDict)
    (hfresh : p.header.sequence ∉ st.receivedSequences)
    (hpay : p.payload ≠ [])
    (hdeser : deserialize p.payload = .ok v)
    (hseq16 : p.header.sequence < 65536)
    (hrem : -1 ≤ st.remoteSequenceNumber)
    (hrem16 : st.remoteSequenceNumber < 65536)
    (hne : (p.header.sequence : Int) ≠ st.remoteSequenceNumber) :
    ∃ st1, processReceivedPacket now st p = .ok st1 ∧
      st1.receivedPayloads = st.receivedPayloads ++ [v] ∧
      p.header.sequence ∈ st1.receivedSequences ∧
      ∀ st2 : ConnState, p.header.sequence ∈ st2.receivedSequences →
        ∃ st3, processReceivedPacket now2 st2 p = .ok st3 ∧
          st3.receivedPayloads = st2.receivedPayloads ∧
          st3.remoteSequenceNumber = st2.remoteSequenceNumber ∧
          st3.ackBitfield = st2.ackBitfield ∧
          st3.receivedSequences = st2.receivedSequences := by
  obtain ⟨st1, hrun, hpayloads, hseqs⟩ :=
    freshProcessing now st p v hfresh hpay hdeser hseq16 hrem hrem16 hne
  refine ⟨st1, hrun, hpayloads, ?_, ?_⟩
  · rw [hseqs]; exact mem_dequeAppend32 _ _
  · intro st2 hmem
    exact ⟨_, dupProcessing now2 st2 p hmem,
      processAcksConn_receivedPayloads _ _ _ _,
      processAcksConn_remoteSequenceNumber _ _ _ _,
      processAcksConn_ackBitfield _ _ _ _,
      processAcksConn_receivedSequences _ _ _ _⟩

def exConnC6 : ConnState := ⟨[], 1/10, -1, 0, [], []⟩

def exPacketC6 : Packet := ⟨⟨0x524F4755, 5, 0, 0⟩, [7, 0, 0]⟩

/-- Witness for C6: a fresh packet with sequence 5 carrying the
serialization of the empty dict, received by a fresh connection. -/
theorem claim_C6_witness :
    ∃ st1, processReceivedPacket 0 exConnC6 exPacketC6 = .ok st1 ∧
      st1.receivedPayloads = exConnC6.receivedPayloads ++ [SDict.nil] ∧
      exPacketC6.header.sequence ∈ st1.receivedSequences ∧
      ∀ st2 : ConnState, exPacketC6.header.sequence ∈ st2.receivedSequences →
        ∃ st3, processReceivedPacket 0 st2 exPacketC6 = .ok st3 ∧
          st3.receivedPayloads = st2.receivedPayloads ∧
          st3.remoteSequenceNumber = st2.remoteSequenceNumber ∧
          st3.ackBitfield = st2.ackBitfield ∧
          st3.receivedSequences = st2.receivedSequences :=
  claim_C6 0 0 exConnC6 exPacketC6 .nil (by simp [exConnC6, exPacketC6])
    (by simp [exPacketC6]) rfl (by decide) (by decide) (by decide) (by decide)

/-- **C7.** For a newly received application packet (sequence not 0, not
in the dedup window) arriving when a latest remote sequence exists:
if the sequence is half-window greater with delta `d = (seq − latest)
mod 65536`, then for `d ≤ 16` the new bitfield is
`((old <<< d) ||| (1 <<< (d − 1))) &&& 0xFFFF` (hence `< 2^16`) and for
`d > 16` it resets to 0; if the sequence is older with
`d = (latest − seq) mod 65536 ≤ 16`, bit `d − 1` is or-ed in and the
result clamped to 16 bits.  The claim's greater/older dichotomy
presupposes the protocol's 16-bit sequence values and an incoming
sequence different from the stored latest, stated here as hypotheses:
at equality (a sequence re-arriving after eviction from the dedup
window) both branches compute `diff = 0` and the source raises
`ValueError: negative shift count` from `1 << (diff - 1)`, modeled by
the error branch of `updateSeqTracking`. -/
theorem claim_C7 (now : ℚ) (st : ConnState) (p : Packet)
    (hseq0 : p.header.sequence ≠ 0)
    (hfresh : p.header.sequence ∉ st.receivedSequences)
    (hpay : p.payload = [] ∨ ∃ v, deserialize p.payload = .ok v)
    (hseq16 : p.header.sequence < 65536)
    (hrem0 : 0 ≤ st.remoteSequenceNumber)
    (hrem16 : st.remoteSequenceNumber < 65536)
    (hne : (p.header.sequence : Int) ≠ st.remoteSequenceNumber) :
    ∃ st', processReceivedPacket now st p = .ok st' ∧
      (isSequenceGreater (p.header.sequence : Int) st.remoteSequenceNumber = true →
        st'.remoteSequenceNumber = (p.header.sequence : Int) ∧
        ((((p.header.sequence : Int) - st.remoteSequenceNumber) % 65536).toNat ≤ 16 →
          st'.ackBitfield =
            ((st.ackBitfield <<<
                (((p.header.sequence : Int) - st.remoteSequenceNumber) % 65536).toNat) |||
             (1 <<<
                ((((p.header.sequence : Int) - st.remoteSequenceNumber) % 65536).toNat - 1)))
              &&& 0xFFFF ∧
          st'.ackBitfield < 65536) ∧
        (16 < (((p.header.sequence : Int) - st.remoteSequenceNumber) % 65536).toNat →
          st'.ackBitfield = 0)) ∧
      (isSequenceGreater (p.header.sequence : Int) st.remoteSequenceNumber = false →
        st'.remoteSequenceNumber = st.remoteSequenceNumber ∧
        (((st.remoteSequenceNumber - (p.header.sequence : Int)) % 65536).toNat ≤ 16 →
          st'.ackBitfield =
            (st.ackBitfield |||
             (1 <<<
                (((st.remoteSequenceNumber - (p.header.sequence : Int)) % 65536).toNat - 1)))
              &&& 0xFFFF ∧
          st'.ackBitfield < 65536)) := by
  have h0 : ¬(p.header.sequence = 0 ∧ p.payload = []) := fun h => hseq0 h.1
  unfold processReceivedPacket
  rw [if_neg h0, processAcksConn_receivedSequences, if_neg hfresh]
  rcases hpay with hpemp | ⟨v, hdeser⟩
  · have hnemp : p.payload.isEmpty = true := by rw [hpemp]; rfl
    simp only [hnemp, if_true]
    obtain ⟨st', hrun, hgt, hng⟩ :=
      updateSeqTracking_spec
        ⟨(processAcksConn now st p.header.ack p.header.ackBitfield).sentPackets,
         (processAcksConn now st p.header.ack p.header.ackBitfield).rtt,
         st.remoteSequenceNumber, st.ackBitfield,
         dequeAppend32 st.receivedSequences p.header.sequence,
         st.receivedPayloads⟩
        p.header.sequence hseq16 hrem0 hrem16 hne
    exact ⟨st', hrun, hgt, hng⟩
  · have hnemp : p.payload.isEmpty = false := by
      cases hp : p.payload with
      | nil => rw [hp] at hdeser; rw [show deserialize [] = .error "IndexError" from rfl] at hdeser; cases hdeser
      | cons a l => rfl
    simp only [hnemp, Bool.false_eq_true, if_false, hdeser]
    obtain ⟨st', hrun, hgt, hng⟩ :=
      updateSeqTracking_spec
        ⟨(processAcksConn now st p.header.ack p.header.ackBitfield).sentPackets,
         (processAcksConn now st p.header.ack p.header.ackBitfield).rtt,
         st.remoteSequenceNumber, st.ackBitfield,
         dequeAppend32 st.receivedSequences p.header.sequence,
         st.receivedPayloads ++ [v]⟩
      p.header.sequence hseq16 hrem0 hrem16 hne
    exact ⟨st', hrun, hgt, hng⟩

def exConnC7 : ConnState := ⟨[], 1/10, 5, 3, [], []⟩

def exPacketC7 : Packet := ⟨⟨0x524F4755, 7, 0, 0⟩, []⟩

/-- Witness for C7: sequence 7 arriving when the latest remote sequence
is 5 and the bitfield is 3 (the greater branch with delta 2). -/
theorem claim_C7_witness :
    ∃ st', processReceivedPacket 0 exConnC7 exPacketC7 = .ok st' ∧
      (isSequenceGreater (exPacketC7.header.sequence : Int) exConnC7.remoteSequenceNumber = true →
        st'.remoteSequenceNumber = (exPacketC7.header.sequence : Int) ∧
        ((((exPacketC7.header.sequence : Int) - exConnC7.remoteSequenceNumber) % 65536).toNat ≤ 16 →
          st'.ackBitfield =
            ((exConnC7.ackBitfield <<<
                (((exPacketC7.header.sequence : Int) - exConnC7.remoteSequenceNumber) % 65536).toNat) |||
             (1 <<<
                ((((exPacketC7.header.sequence : Int) - exConnC7.remoteSequenceNumber) % 65536).toNat - 1)))
              &&& 0xFFFF ∧
          st'.ackBitfield < 65536) ∧
        (16 < (((exPacketC7.header.sequence : Int) - exConnC7.remoteSequenceNumber) % 65536).toNat →
          st'.ackBitfield = 0)) ∧
      (isSequenceGreater (exPacketC7.header.sequence : Int) exConnC7.remoteSequenceNumber = false →
        st'.remoteSequenceNumber = exConnC7.remoteSequenceNumber ∧
        (((exConnC7.remoteSequenceNumber - (exPacketC7.header.sequence : Int)) % 65536).toNat ≤ 16 →
          st'.ackBitfield =
            (exConnC7.ackBitfield |||
             (1 <<<
                (((exConnC7.remoteSequenceNumber - (exPacketC7.header.sequence : Int)) % 65536).toNat - 1)))
              &&& 0xFFFF ∧
          st'.ackBitfield < 65536)) :=
  claim_C7 0 exConnC7 exPacketC7 (by decide) (by simp [exConnC7, exPacketC7])
    (Or.inl rfl) (by decide) (by decide) (by decide) (by decide)

/-! ## Battle engine (`battledex_engine/battle.py`, `event_queue.py`)

A `Combatant` is modeled by the two capabilities the engine reads at
construction time (`id`, `is_active`); an `Action` by its single
engine-visible contract (an integer `priority`) plus an opaque tag that
stands for the rest of the Python object's identity. -/

structure Combatant where
  id : String
  isActive : Bool
  deriving DecidableEq, Repr

structure CombatantState where
  id : String
  deriving DecidableEq, Repr

structure TeamState where
  combatants : List CombatantState
  activeCombatantId : String
  hazards : List String
  deriving DecidableEq, Repr

structure BattleState where
  teams : List TeamState
  turnNumber : Int
  weather : Option String
  terrain : Option String
  deriving DecidableEq, Repr

/-- The per-team loop of `Battle._create_initial_state` (lines 34-51):
collect the combatant states in order, remember the id of the *last*
combatant whose active flag is set, and raise when the resulting
`active_combatant_id` is falsy (Python `if not active_combatant_id`
fires both on `None` and on the empty string). -/
def teamInitialState (team : List Combatant) : Except String TeamState :=
  let combatantStates := team.map (fun c => CombatantState.mk c.id)
  let activeId := team.foldl (fun acc c => if c.isActive then some c.id else acc)
    (none : Option String)
  match activeId with
  | none => .error "A team was provided with no active combatant."
  | some aid =>
      if aid = "" then .error "A team was provided with no active combatant."
      else .ok ⟨combatantStates, aid, []⟩

/-- The team loop of `_create_initial_state`: build the team states in
order, propagating the first raise. -/
def createTeamStates : List (List Combatant) → Except String (List TeamState)
  | [] => .ok []
  | t :: ts => do
      let s ← teamInitialState t
      let rest ← createTeamStates ts
      pure (s :: rest)

/-- `Battle._create_initial_state` (lines 31-53); run from `Battle.__init__`,
so a raise aborts construction with no battle state. -/
def createInitialState (teams : List (List Combatant)) : Except String BattleState := do
  let teamStates ← createTeamStates teams
  pure ⟨teamStates, 0, none, none⟩

theorem activeFold_eq_none (team : List Combatant) (acc : Option String) :
    team.foldl (fun acc c => if c.isActive then some c.id else acc) acc = none ↔
      acc = none ∧ ∀ c ∈ team, c.isActive = false := by
  induction team generalizing acc with
  | nil => simp
  | cons c cs ih =>
    simp only [List.foldl, ih, List.mem_cons]
    constructor
    · rintro ⟨hite, hall⟩
      by_cases hc : c.isActive
      · rw [if_pos hc] at hite; cases hite
      · rw [if_neg hc] at hite
        exact ⟨hite, fun x hx => hx.elim (fun h => h ▸ Bool.eq_false_iff.mpr hc)
          (fun h => hall x h)⟩
    · rintro ⟨hacc, hall⟩
      have hc : c.isActive = false := hall c (Or.inl rfl)
      refine ⟨?_, fun x hx => hall x (Or.inr hx)⟩
      simp [hc, hacc]

theorem activeFold_eq_some (team : List Combatant) (acc : Option String) (a : String)
    (h : team.foldl (fun acc c => if c.isActive then some c.id else acc) acc = some a) :
    acc = some a ∨ ∃ c ∈ team, c.isActive = true ∧ c.id = a := by
  induction team generalizing acc with
  | nil => exact Or.inl h
  | cons c cs ih =>
    rcases ih _ h with hacc | ⟨x, hx, hxa⟩
    · simp only at hacc
      by_cases hc : c.isActive
      · rw [if_pos hc] at hacc
        exact Or.inr ⟨c, List.mem_cons_self c cs, hc, Option.some.inj hacc⟩
      · rw [if_neg hc] at hacc
        exact Or.inl hacc
    · exact Or.inr ⟨x, List.mem_cons_of_mem c hx, hxa⟩

theorem teamInitialState_isOk (team : List Combatant)
    (hids : ∀ c ∈ team, c.id ≠ "") :
    (∃ ts, teamInitialState team = .ok ts) ↔ ∃ c ∈ team, c.isActive = true := by
  unfold teamInitialState
  cases hfold : team.foldl (fun acc c => if c.isActive then some c.id else acc)
      (none : Option String) with
  | none =>
    simp only
    constructor
    · rintro ⟨ts, hts⟩; cases hts
    · rintro ⟨c, hc, hact⟩
      have := (activeFold_eq_none team none).mp hfold
      rw [this.2 c hc] at hact; cases hact
  | some aid =>
    have haid : aid ≠ "" := by
      rcases activeFold_eq_some team none aid hfold with hnone | ⟨c, hc, hact, hid⟩
      · cases hnone
      · exact hid ▸ hids c hc
    simp only [if_neg haid]
    constructor
    · rintro ⟨ts, hts⟩
      rcases activeFold_eq_some team none aid hfold with hnone | ⟨c, hc, hact, hid⟩
      · cases hnone
      · exact ⟨c, hc, hact⟩
    · intro h
      exact ⟨_, rfl⟩

theorem createTeamStates_ok_iff (l : List (List Combatant)) :
    (∃ ys, createTeamStates l = .ok ys) ↔
      ∀ t ∈ l, ∃ y, teamInitialState t = .ok y := by
  induction l with
  | nil => exact ⟨fun _ t ht => absurd ht (List.not_mem_nil t), fun _ => ⟨[], rfl⟩⟩
  | cons x xs ih =>
    unfold createTeamStates
    constructor
    · rintro ⟨ys, hys⟩
      cases hfx : teamInitialState x with
      | error e =>
        rw [hfx] at hys
        simp [bind, Except.bind] at hys
      | ok y =>
        rw [hfx] at hys
        simp only [bind, Except.bind] at hys
        cases hrest : createTeamStates xs with
        | error e => rw [hrest] at hys; simp [pure, Except.pure] at hys
        | ok zs =>
          intro a ha
          rcases List.mem_cons.mp ha with rfl | hmem
          · exact ⟨y, hfx⟩
          · exact ih.mp ⟨zs, hrest⟩ a hmem
    · intro hall
      obtain ⟨y, hy⟩ := hall x (List.mem_cons_self x xs)
      obtain ⟨zs, hzs⟩ := ih.mpr (fun a ha => hall a (List.mem_cons_of_mem x ha))
      exact ⟨y :: zs, by simp [hy, hzs, bind, Except.bind, pure, Except.pure]⟩

/-- Counterexample to **C1** as stated: the team `[("a", active),
("b", active)]` does not have exactly one active combatant, yet
construction succeeds — the loop keeps the last active id, so the team
state records `"b"` as active. -/
theorem claim_C1_counterexample :
    ((([⟨"a", true⟩, ⟨"b", true⟩] : List Combatant).countP (fun c => c.isActive)) = 2) ∧
    createInitialState [[⟨"a", true⟩, ⟨"b", true⟩]] =
      .ok ⟨[⟨[⟨"a"⟩, ⟨"b"⟩], "b", []⟩], 0, none, none⟩ :=
  ⟨rfl, rfl⟩

/-- **C1** (amended).  Construction fails — raising before any battle
state exists — exactly when some team has *no* active combatant; a team
with two or more active combatants is accepted, the last active one
becoming the team's active id (see the counterexample).  Combatant ids
are assumed non-empty, as Python's falsiness test on the id string also
fires on `""`. -/
theorem claim_C1 (teams : List (List Combatant))
    (hids : ∀ t ∈ teams, ∀ c ∈ t, c.id ≠ "") :
    (∃ st, createInitialState teams = .ok st) ↔
      ∀ t ∈ teams, ∃ c ∈ t, c.isActive = true := by
  unfold createInitialState
  constructor
  · rintro ⟨st, hst⟩
    intro t ht
    have hok : ∃ ys, createTeamStates teams = .ok ys := by
      cases hm : createTeamStates teams with
      | error e => rw [hm] at hst; simp [bind, Except.bind] at hst
      | ok ys => exact ⟨ys, rfl⟩
    have := (createTeamStates_ok_iff teams).mp hok t ht
    exact (teamInitialState_isOk t (hids t ht)).mp this
  · intro hall
    have hok : ∃ ys, createTeamStates teams = .ok ys :=
      (createTeamStates_ok_iff teams).mpr
        (fun t ht => (teamInitialState_isOk t (hids t ht)).mpr (hall t ht))
    obtain ⟨ys, hys⟩ := hok
    exact ⟨⟨ys, 0, none, none⟩, by simp [hys, bind, Except.bind, pure, Except.pure]⟩

/-- Witness for C1: a single team with one active combatant constructs,
as the equivalence demands. -/
theorem claim_C1_witness :
    ∃ st, createInitialState [[⟨"p", true⟩, ⟨"q", false⟩]] = .ok st :=
  (claim_C1 [[⟨"p", true⟩, ⟨"q", false⟩]] (by decide)).mpr (by decide)

/-! ## Battle engine: action submission and turn processing
(`Battle.submit_actions` lines 55-90, `EventQueue` lines 27-89)

Python's `sorted(..., key=..., reverse=True)` is a stable sort by
descending key; `sortByDesc` below is a stable insertion sort with the
same specification (a stable sort by a fixed key is unique, so the two
agree on every input).  A handler invocation is modeled by the sequence
of `EventQueue.add` calls it performs — the only queue mutators — plus
the state it leaves behind. -/

structure Action where
  priority : Int
  tag : String
  deriving DecidableEq, Repr

inductive PVal where
  | pstr (s : String)
  | pact (a : Action)
  deriving DecidableEq, Repr

structure Event where
  eventType : String
  payload : List (String × PVal)
  deriving DecidableEq, Repr

/-- The event built for each submitted action (lines 83-89). -/
def mkActionRequestEvent (userId : String) (a : Action) : Event :=
  ⟨"ACTION_REQUEST", [("action", .pact a), ("user_id", .pstr userId)]⟩

/-- The sort key of `submit_actions`: the priority of the first action of
the pair (`pair[1][0].priority`; the `[]` case is unreachable because
empty lists are filtered out first). -/
def firstPriority (p : String × List Action) : Int :=
  match p.2 with
  | a :: _ => a.priority
  | [] => 0

/-- Stable insertion into a descending-by-key list: `x` goes after every
element of equal or higher key that is already present. -/
def insertByDesc (key : (String × List Action) → Int) (x : String × List Action) :
    List (String × List Action) → List (String × List Action)
  | [] => [x]
  | y :: ys => if key y ≤ key x then x :: y :: ys else y :: insertByDesc key x ys

/-- Stable sort, descending by key. -/
def sortByDesc (key : (String × List Action) → Int) :
    List (String × List Action) → List (String × List Action)
  | [] => []
  | x :: xs => insertByDesc key x (sortByDesc key xs)

/-- `Battle.submit_actions` (lines 55-90): filter out users with empty
action lists, sort the (user, actions) pairs by the first action's
priority descending (stably), then append one `ACTION_REQUEST` event per
action to the back of the queue. -/
def submitActions (queue : List Event) (actionsMap : List (String × List Action)) :
    List Event :=
  let validActionPairs := actionsMap.filter (fun p => !p.2.isEmpty)
  let sortedPairs := sortByDesc firstPriority validActionPairs
  sortedPairs.foldl
    (fun q p => p.2.foldl (fun q a => q ++ [mkActionRequestEvent p.1 a]) q) queue

/-- A handler: the `add` calls it performs, in order (`Bool` = `to_front`),
and the state it leaves. -/
def Handler := Event → BattleState → (List (Event × Bool)) × BattleState

def HandlerTable := List (String × List Handler)

/-- `EventQueue.add` (lines 44-58). -/
def addEvent (q : List Event) (e : Event) (toFront : Bool) : List Event :=
  if toFront then e :: q else q ++ [e]

/-- Run every handler registered for an event, in registration order,
applying each handler's `add` calls to the queue. -/
def runHandlers (hs : List Handler) (e : Event) (q : List Event) (st : BattleState) :
    List Event × BattleState :=
  hs.foldl (fun acc h =>
    let r := h e acc.2
    (r.1.foldl (fun q a => addEvent q a.1 a.2) acc.1, r.2)) (q, st)

/-- `EventQueue.process_all` (lines 60-89), with explicit fuel: pop from
the front, append the event to the log, run its handlers, repeat until
the queue is empty.  `none` means the fuel ran out before quiescence. -/
def processAllFuel (ht : HandlerTable) :
    Nat → List Event → BattleState → List Event → Option (List Event × BattleState)
  | _, [], st, log => some (log, st)
  | 0, _ :: _, _, _ => none
  | fuel + 1, e :: q, st, log =>
      let hs := (ht.lookup e.eventType).getD []
      let r := runHandlers hs e q st
      processAllFuel ht fuel r.1 r.2 (log ++ [e])

section SortLemmas

variable (key : (String × List Action) → Int)

theorem insertByDesc_perm (x : String × List Action) (l : List (String × List Action)) :
    List.Perm (insertByDesc key x l) (x :: l) := by
  induction l with
  | nil => exact List.Perm.refl _
  | cons y ys ih =>
    unfold insertByDesc
    split
    · exact List.Perm.refl _
    · exact List.Perm.trans (ih.cons y) (List.Perm.swap x y ys)

theorem sortByDesc_perm (l : List (String × List Action)) :
    List.Perm (sortByDesc key l) l := by
  induction l with
  | nil => exact List.Perm.refl _
  | cons x xs ih =>
    exact List.Perm.trans (insertByDesc_perm key x _) (ih.cons x)

theorem insertByDesc_pairwise (x : String × List Action) (l : List (String × List Action))
    (hl : l.Pairwise (fun a b => key b ≤ key a)) :
    (insertByDesc key x l).Pairwise (fun a b => key b ≤ key a) := by
  induction l with
  | nil => simp [insertByDesc]
  | cons y ys ih =>
    rw [List.pairwise_cons] at hl
    unfold insertByDesc
    split
    · rename_i hyx
      rw [List.pairwise_cons]
      constructor
      · intro b hb
        rcases List.mem_cons.mp hb with rfl | hmem
        · exact hyx
        · exact le_trans (hl.1 b hmem) hyx
      · exact List.pairwise_cons.mpr hl
    · rename_i hyx
      rw [List.pairwise_cons]
      constructor
      · intro b hb
        have := (insertByDesc_perm key x ys).mem_iff.mp hb
        rcases List.mem_cons.mp this with rfl | hmem
        · exact le_of_lt (lt_of_not_le hyx)
        · exact hl.1 b hmem
      · exact ih hl.2

theorem sortByDesc_pairwise (l : List (String × List Action)) :
    (sortByDesc key l).Pairwise (fun a b => key b ≤ key a) := by
  induction l with
  | nil => simp [sortByDesc]
  | cons x xs ih => exact insertByDesc_pairwise key x _ ih

theorem insertByDesc_filter_eq (x : String × List Action) (l : List (String × List Action))
    (k : Int) :
    (insertByDesc key x l).filter (fun a => key a = k) =
      if key x = k then x :: l.filter (fun a => key a = k)
      else l.filter (fun a => key a = k) := by
  induction l with
  | nil =>
    simp only [insertByDesc, List.filter]
    split <;> simp_all
  | cons y ys ih =>
    unfold insertByDesc
    split
    · rename_i hyx
      by_cases hxk : key x = k
      · simp [List.filter_cons, hxk]
      · by_cases hyk : key y = k
        · rw [if_neg hxk]
          simp [List.filter_cons, hxk, hyk]
        · rw [if_neg hxk]
          simp [List.filter_cons, hxk, hyk]
    · rename_i hyx
      by_cases hyk : key y = k
      · simp only [List.filter_cons, ih]
        by_cases hxk : key x = k
        · rw [if_pos hxk, if_pos hxk]
          -- x must come before y in the result, but key y ≤ key x is false
          -- while key x = key y = k: contradiction
          exact absurd (hxk ▸ hyk ▸ le_refl k) hyx
        · simp [hxk, hyk]
      · simp only [List.filter_cons, ih]
        by_cases hxk : key x = k
        · simp [hxk, hyk]
        · simp [hxk, hyk]

theorem sortByDesc_stable (l : List (String × List Action)) (k : Int) :
    (sortByDesc key l).filter (fun a => key a = k) =
      l.filter (fun a => key a = k) := by
  induction l with
  | nil => rfl
  | cons x xs ih =>
    unfold sortByDesc
    rw [insertByDesc_filter_eq]
    by_cases hxk : key x = k
    · rw [if_pos hxk, ih, List.filter_cons, if_pos (by simpa using hxk)]
    · rw [if_neg hxk, ih, List.filter_cons, if_neg (by simpa using hxk)]

end SortLemmas

section QueueLemmas

theorem foldl_append_actions (acts : List Action) (uid : String) (q : List Event) :
    acts.foldl (fun q a => q ++ [mkActionRequestEvent uid a]) q =
      q ++ acts.map (mkActionRequestEvent uid) := by
  induction acts generalizing q with
  | nil => simp
  | cons a as ih => simp [List.foldl, ih]

theorem foldl_pairs_eq (l : List (String × List Action)) (queue : List Event) :
    l.foldl (fun q p => p.2.foldl (fun q a => q ++ [mkActionRequestEvent p.1 a]) q)
        queue =
      queue ++ l.flatMap (fun p => p.2.map (mkActionRequestEvent p.1)) := by
  induction l generalizing queue with
  | nil => simp
  | cons p ps ih =>
    rw [List.foldl_cons, foldl_append_actions, ih, List.flatMap_cons,
      List.append_assoc]

theorem submitActions_eq (queue : List Event) (m : List (String × List Action)) :
    submitActions queue m =
      queue ++ (sortByDesc firstPriority (m.filter (fun p => !p.2.isEmpty))).flatMap
        (fun p => p.2.map (mkActionRequestEvent p.1)) := by
  unfold submitActions
  exact foldl_pairs_eq _ queue

theorem sublist_addEvent (q : List Event) (e : Event) (b : Bool) :
    q.Sublist (addEvent q e b) := by
  unfold addEvent
  split
  · exact List.sublist_cons_self e q
  · exact List.sublist_append_left q [e]

theorem sublist_foldl_addEvent (adds : List (Event × Bool)) (q : List Event) :
    q.Sublist (adds.foldl (fun q a => addEvent q a.1 a.2) q) := by
  induction adds generalizing q with
  | nil => exact List.Sublist.refl q
  | cons a as ih => exact (sublist_addEvent q a.1 a.2).trans (ih _)

theorem sublist_runHandlers (hs : List Handler) (e : Event) (q : List Event)
    (st : BattleState) : q.Sublist (runHandlers hs e q st).1 := by
  unfold runHandlers
  induction hs generalizing q st with
  | nil => exact List.Sublist.refl q
  | cons h hs ih =>
    simp only [List.foldl]
    exact (sublist_foldl_addEvent _ q).trans (ih _ _)

theorem processAll_log (ht : HandlerTable) :
    ∀ fuel (q : List Event) st log log' st',
      processAllFuel ht fuel q st log = some (log', st') →
      ∃ suffix, log' = log ++ suffix ∧ q.Sublist suffix := by
  intro fuel
  induction fuel with
  | zero =>
    intro q st log log' st' h
    cases q with
    | nil =>
      unfold processAllFuel at h
      injection h with h'
      injection h' with h1 h2
      exact ⟨[], by simp [h1], List.Sublist.refl _⟩
    | cons e q1 =>
      unfold processAllFuel at h
      cases h
  | succ fuel ih =>
    intro q st log log' st' h
    cases q with
    | nil =>
      unfold processAllFuel at h
      injection h with h'
      injection h' with h1 h2
      exact ⟨[], by simp [h1], List.Sublist.refl _⟩
    | cons e q1 =>
      unfold processAllFuel at h
      obtain ⟨s, hs, hsub⟩ := ih _ _ _ _ _ h
      refine ⟨e :: s, ?_, ?_⟩
      · rw [hs, List.append_assoc]
        rfl
      · exact List.cons_sublist_cons.mpr
          ((sublist_runHandlers _ e q1 st).trans hsub)

end QueueLemmas

/-- Counterexample to **C8** as stated: user `u` submits `[a0, b9]`
(priorities 0 and 9) and user `w` submits `[c5]` (priority 5).  The pairs
are sorted by the priority of the *first* action, so `w`'s pair comes
first, and the log — with no handlers registered — is exactly the
submitted events: `b9`'s event (priority 9) appears *after* `c5`'s event
(priority 5), refuting "an action with strictly higher priority always
produces its action-request event earlier in the log". -/
theorem claim_C8_counterexample :
    (Action.mk 9 "b9").priority > (Action.mk 5 "c5").priority ∧
    processAllFuel [] 3
      (submitActions [] [("u", [⟨0, "a0"⟩, ⟨9, "b9"⟩]), ("w", [⟨5, "c5"⟩])])
      ⟨[], 0, none, none⟩ [] =
      some ([mkActionRequestEvent "w" ⟨5, "c5"⟩,
             mkActionRequestEvent "u" ⟨0, "a0"⟩,
             mkActionRequestEvent "u" ⟨9, "b9"⟩], ⟨[], 0, none, none⟩) :=
  ⟨by decide, rfl⟩

/-- **C8** (amended).  `submit_actions` filters out empty action lists,
stably sorts the (user, actions) pairs by the priority of each pair's
*first* action, descending (ties keep map iteration order), and appends
one `ACTION_REQUEST` event per action, in that order, to the back of the
queue; `process_turn` drains the queue to quiescence, logging events in
processing order, and the submitted events appear in the log as a
subsequence in their submitted order — so every event of a pair whose
first action has strictly higher priority precedes every event of a
lower-first-priority pair.  (The original claim's per-action guarantee
fails when a user's later actions differ in priority from their first;
see the counterexample.) -/
theorem claim_C8 (actionsMap : List (String × List Action)) (ht : HandlerTable)
    (st : BattleState) (fuel : Nat) (log : List Event) (st' : BattleState)
    (hrun : processAllFuel ht fuel (submitActions [] actionsMap) st [] =
      some (log, st')) :
    (submitActions [] actionsMap =
      (sortByDesc firstPriority (actionsMap.filter (fun p => !p.2.isEmpty))).flatMap
        (fun p => p.2.map (mkActionRequestEvent p.1))) ∧
    (sortByDesc firstPriority (actionsMap.filter (fun p => !p.2.isEmpty))).Pairwise
      (fun a b => firstPriority b ≤ firstPriority a) ∧
    (∀ k : Int,
      (sortByDesc firstPriority (actionsMap.filter (fun p => !p.2.isEmpty))).filter
          (fun p => firstPriority p = k) =
        (actionsMap.filter (fun p => !p.2.isEmpty)).filter
          (fun p => firstPriority p = k)) ∧
    (submitActions [] actionsMap).Sublist log := by
  refine ⟨by simpa using submitActions_eq [] actionsMap,
    sortByDesc_pairwise firstPriority _,
    fun k => sortByDesc_stable firstPriority _ k, ?_⟩
  obtain ⟨suffix, hlog, hsub⟩ := processAll_log ht fuel _ st [] log st' hrun
  rw [hlog]
  simpa using hsub

/-- Witness for C8 at the counterexample input with no handlers. -/
theorem claim_C8_witness :
    (submitActions [] [("u", [⟨0, "a0"⟩, ⟨9, "b9"⟩]), ("w", [⟨5, "c5"⟩])] =
      (sortByDesc firstPriority
        ([("u", [⟨0, "a0"⟩, ⟨9, "b9"⟩]), ("w", [⟨5, "c5"⟩])].filter
          (fun p => !p.2.isEmpty))).flatMap
        (fun p => p.2.map (mkActionRequestEvent p.1))) ∧
    (sortByDesc firstPriority
      ([("u", [⟨0, "a0"⟩, ⟨9, "b9"⟩]), ("w", [⟨5, "c5"⟩])].filter
        (fun p => !p.2.isEmpty))).Pairwise
      (fun a b => firstPriority b ≤ firstPriority a) ∧
    (∀ k : Int,
      (sortByDesc firstPriority
        ([("u", [⟨0, "a0"⟩, ⟨9, "b9"⟩]), ("w", [⟨5, "c5"⟩])].filter
          (fun p => !p.2.isEmpty))).filter (fun p => firstPriority p = k) =
        (([("u", [⟨0, "a0"⟩, ⟨9, "b9"⟩]), ("w", [⟨5, "c5"⟩])].filter
          (fun p => !p.2.isEmpty))).filter (fun p => firstPriority p = k)) ∧
    (submitActions [] [("u", [⟨0, "a0"⟩, ⟨9, "b9"⟩]), ("w", [⟨5, "c5"⟩])]).Sublist
      [mkActionRequestEvent "w" ⟨5, "c5"⟩,
       mkActionRequestEvent "u" ⟨0, "a0"⟩,
       mkActionRequestEvent "u" ⟨9, "b9"⟩] :=
  claim_C8 [("u", [⟨0, "a0"⟩, ⟨9, "b9"⟩]), ("w", [⟨5, "c5"⟩])] [] ⟨[], 0, none, none⟩
    3 _ ⟨[], 0, none, none⟩ rfl

/-! ## RogueScript parser (`roguescript/parser.py`)

The token kinds are exactly the members of the checked-in
`token_types.py` — which defines no `VAR` and no `PRINT`, although
`parser.py` reads both off the enum (`TokenType.VAR` at lines 76 and
417, `TokenType.PRINT` at lines 123 and 418): in Python, evaluating such
an attribute raises an `AttributeError`, which nothing in the parser
catches (its `except` clauses handle only `ParseError`).  The model
carries that outcome as `PFail.attrError` with the missing member's
name.  A token's payload (`Token.value`) and a literal's value share one
carrier `PyVal`.  Parse errors are modeled in an explicit result
channel: `_error` records the reported message in the state (the source
sets `had_error` and builds the message into the raised `ParseError`);
`PFail.noFuel` marks fuel exhaustion of the model's bounded recursion,
never reached from the wrappers' fuel choices below.  Out-of-range token
reads default to an `EOF` token; the lexer always terminates the token
list with `EOF`, so the parser never reads past it. -/

inductive TokType where
  | NUMBER | STRING | IDENTIFIER
  | IF | ELSE | WHILE | FOR | DEF | RETURN | TRUE | FALSE | NIL | AND | OR | NOT
  | PLUS | MINUS | STAR | SLASH | DOT | COMMA | COLON | SEMICOLON
  | LPAREN | RPAREN | LBRACE | RBRACE
  | EQUALS | EQUAL_EQUAL | BANG | BANG_EQUAL
  | GREATER | GREATER_EQUAL | LESS | LESS_EQUAL
  | EOF
  deriving DecidableEq, Repr

inductive PyVal where
  | none
  | bool (b : Bool)
  | int (n : Int)
  | float (q : ℚ)
  | str (s : String)
  deriving DecidableEq, Repr

structure Tok where
  type : TokType
  value : PyVal
  line : Nat
  deriving DecidableEq, Repr

mutual
inductive Expr where
  | binary (left : Expr) (op : Tok) (right : Expr) (line : Nat)
  | unary (op : Tok) (right : Expr) (line : Nat)
  | literal (value : PyVal) (line : Nat)
  | grouping (e : Expr) (line : Nat)
  | variableExpr (name : Tok) (line : Nat)
  | assign (name : Tok) (value : Expr) (line : Nat)
  | logical (left : Expr) (op : Tok) (right : Expr) (line : Nat)
  | call (callee : Expr) (args : ExprList) (line : Nat)
  deriving Repr
inductive ExprList where
  | nil
  | cons (e : Expr) (tl : ExprList)
  deriving Repr
end

/-! Statements: lists of parsed declarations hold `OStmt` because
`Parser._declaration` returns `None` after a synchronized parse error,
and the surrounding lists keep those entries. -/
mutual
inductive Stmt where
  | expression (e : Expr) (line : Nat)
  | printS (e : Expr) (line : Nat)
  | varDecl (name : Tok) (initializer : Option Expr) (line : Nat)
  | block (stmts : OStmtList) (line : Nat)
  | ifS (cond : Expr) (thenBranch : Stmt) (elseBranch : OStmt) (line : Nat)
  | whileS (cond : Expr) (body : Stmt) (line : Nat)
  | defS (name : Tok) (params : List Tok) (body : Stmt) (line : Nat)
  | returnS (value : Option Expr) (line : Nat)
  deriving Repr
inductive OStmt where
  | noneS
  | someS (s : Stmt)
  deriving Repr
inductive OStmtList where
  | nil
  | cons (s : OStmt) (tl : OStmtList)
  deriving Repr
end

structure PyProgram where
  statements : OStmtList
  line : Nat
  deriving Repr

structure PState where
  tokens : List Tok
  current : Nat
  hadError : Bool
  errors : List String
  deriving Repr

inductive PFail where
  | parseErr (msg : String)
  | attrError (name : String)
  | noFuel
  deriving DecidableEq, Repr

abbrev PRes (α : Type) := PState × Except PFail α

def initPState (tokens : List Tok) : PState := ⟨tokens, 0, false, []⟩

def dummyEOF : Tok := ⟨.EOF, .none, 0⟩

/-- `Parser._peek`. -/
def peekTok (s : PState) : Tok := s.tokens.getD s.current dummyEOF

/-- `Parser._previous`. -/
def prevTok (s : PState) : Tok := s.tokens.getD (s.current - 1) dummyEOF

/-- `Parser._is_at_end`. -/
def isAtEnd (s : PState) : Bool := (peekTok s).type = .EOF

/-- `Parser._check`. -/
def checkTok (s : PState) (t : TokType) : Bool :=
  if isAtEnd s then false else (peekTok s).type = t

/-- `Parser._advance` (state part; the returned token is `prevTok` of the
new state). -/
def advanceTok (s : PState) : PState :=
  if isAtEnd s then s else { s with current := s.current + 1 }

/-- `Parser._match`. -/
def matchTok : List TokType → PState → PState × Bool
  | [], s => (s, false)
  | t :: ts, s => if checkTok s t then (advanceTok s, true) else matchTok ts s

/-- `Parser._error`: set `had_error`, record the reported message. -/
def reportError (s : PState) (msg : String) : PState :=
  { s with hadError := true, errors := s.errors ++ [msg] }

/-- `Parser._consume`. -/
def consumeTok (s : PState) (t : TokType) (msg : String) : PRes Tok :=
  if checkTok s t then
    let s1 := advanceTok s
    (s1, .ok (prevTok s1))
  else
    (reportError s msg, .error (.parseErr msg))

/-- `Parser._synchronize` (lines 408-422): one advance, then the loop.
The exits that touch no enum member: the loop guard's at-end check and
the previous-token-is-a-semicolon check.  Past those, building the
statement-start tuple (lines 416-419) evaluates `TokenType.VAR`, which
the checked-in `token_types.py` does not define: an uncaught
`AttributeError`. -/
def synchronize (s : PState) : PRes Unit :=
  let s := advanceTok s
  if isAtEnd s then (s, .ok ())
  else if (prevTok s).type = .SEMICOLON then (s, .ok ())
  else (s, .error (.attrError "VAR"))

mutual

/-- `Parser._declaration` (lines 71-82).  When the next token is not
`def`, line 76 evaluates `TokenType.VAR` — a member the checked-in
`token_types.py` does not define — so the source raises an uncaught
`AttributeError` with the state unchanged; only a `ParseError` (from a
matched `def` declaration) is caught and answered with `_synchronize`
and a `None` entry. -/
def pDeclaration : Nat → PState → PRes OStmt
  | 0, s => (s, .error .noFuel)
  | fuel + 1, s =>
      let attempt : PRes Stmt :=
        match matchTok [.DEF] s with
        | (s1, true) => pDefStatement fuel s1
        | (s1, false) => (s1, .error (.attrError "VAR"))
      match attempt with
      | (s1, .ok st) => (s1, .ok (.someS st))
      | (s1, .error (.parseErr _)) =>
          match synchronize s1 with
          | (s2, .ok ()) => (s2, .ok .noneS)
          | (s2, .error e) => (s2, .error e)
      | (s1, .error e) => (s1, .error e)

/-- `Parser._def_statement` (after the `def` keyword was matched). -/
def pDefStatement : Nat → PState → PRes Stmt
  | 0, s => (s, .error .noFuel)
  | fuel + 1, s =>
      match consumeTok s .IDENTIFIER "Expected function name." with
      | (s1, .error e) => (s1, .error e)
      | (s1, .ok name) =>
          match consumeTok s1 .LPAREN "Expected '(' after function name." with
          | (s2, .error e) => (s2, .error e)
          | (s2, .ok _) =>
              let paramsRes : PRes (List Tok) :=
                if checkTok s2 .RPAREN then (s2, .ok [])
                else pParamsLoop fuel [] s2
              match paramsRes with
              | (s3, .error e) => (s3, .error e)
              | (s3, .ok params) =>
                  match consumeTok s3 .RPAREN "Expected ')' after parameters." with
                  | (s4, .error e) => (s4, .error e)
                  | (s4, .ok _) =>
                      match consumeTok s4 .LBRACE "Expected '\x7b' before function body." with
                      | (s5, .error e) => (s5, .error e)
                      | (s5, .ok _) =>
                          let bodyLine := (prevTok s5).line
                          match pBlock fuel s5 with
                          | (s6, .error e) => (s6, .error e)
                          | (s6, .ok body) =>
                              (s6, .ok (.defS name params (.block body bodyLine)
                                name.line))

/-- The parameter loop of `_def_statement`. -/
def pParamsLoop : Nat → List Tok → PState → PRes (List Tok)
  | 0, _, s => (s, .error .noFuel)
  | fuel + 1, params, s =>
      let s := if params.length ≥ 255 then
          reportError s "Cannot have more than 255 parameters." else s
      match consumeTok s .IDENTIFIER "Expected parameter name." with
      | (s1, .error e) => (s1, .error e)
      | (s1, .ok p) =>
          match matchTok [.COMMA] s1 with
          | (s2, false) => (s2, .ok (params ++ [p]))
          | (s2, true) => pParamsLoop fuel (params ++ [p]) s2

/-- `Parser._var_declaration` (after `var`). -/
def pVarDeclaration : Nat → PState → PRes Stmt
  | 0, s => (s, .error .noFuel)
  | fuel + 1, s =>
      match consumeTok s .IDENTIFIER "Expected variable name." with
      | (s1, .error e) => (s1, .error e)
      | (s1, .ok name) =>
          let initRes : PRes (Option Expr) :=
            match matchTok [.EQUALS] s1 with
            | (s2, true) =>
                match pExpression fuel s2 with
                | (s3, .ok e) => (s3, .ok (some e))
                | (s3, .error e) => (s3, .error e)
            | (s2, false) => (s2, .ok none)
          match initRes with
          | (s2, .error e) => (s2, .error e)
          | (s2, .ok initializer) =>
              match consumeTok s2 .SEMICOLON
                  "Expected ';' after variable declaration." with
              | (s3, .error e) => (s3, .error e)
              | (s3, .ok _) => (s3, .ok (.varDecl name initializer name.line))

/-- `Parser._statement` (lines 121-135).  Its first dispatch, line 123,
evaluates `TokenType.PRINT`, which the checked-in `token_types.py` does
not define: an uncaught `AttributeError`, unconditionally and with the
state unchanged.  (The print / return / while / block / if /
expression-statement dispatch below that line — modeled by the statement
parsers that follow — is unreachable in the checked-in code, as is
`_var_declaration` above.) -/
def pStatement : Nat → PState → PRes Stmt
  | 0, s => (s, .error .noFuel)
  | _ + 1, s => (s, .error (.attrError "PRINT"))

/-- `Parser._return_statement` (after `return`). -/
def pReturnStatement : Nat → PState → PRes Stmt
  | 0, s => (s, .error .noFuel)
  | fuel + 1, s =>
      let keyword := prevTok s
      let valueRes : PRes (Option Expr) :=
        if checkTok s .SEMICOLON then (s, .ok none)
        else
          match pExpression fuel s with
          | (s1, .ok e) => (s1, .ok (some e))
          | (s1, .error e) => (s1, .error e)
      match valueRes with
      | (s1, .error e) => (s1, .error e)
      | (s1, .ok value) =>
          match consumeTok s1 .SEMICOLON "Expected ';' after return value." with
          | (s2, .error e) => (s2, .error e)
          | (s2, .ok _) => (s2, .ok (.returnS value keyword.line))

/-- `Parser._if_statement` (after `if`). -/
def pIfStatement : Nat → PState → PRes Stmt
  | 0, s => (s, .error .noFuel)
  | fuel + 1, s =>
      let line := (prevTok s).line
      match consumeTok s .LPAREN "Expected '(' after 'if'." with
      | (s1, .error e) => (s1, .error e)
      | (s1, .ok _) =>
      match pExpression fuel s1 with
      | (s2, .error e) => (s2, .error e)
      | (s2, .ok condition) =>
      match consumeTok s2 .RPAREN "Expected ')' after if condition." with
      | (s3, .error e) => (s3, .error e)
      | (s3, .ok _) =>
      match pStatement fuel s3 with
      | (s4, .error e) => (s4, .error e)
      | (s4, .ok thenBranch) =>
      match matchTok [.ELSE] s4 with
      | (s5, true) =>
          match pStatement fuel s5 with
          | (s6, .error e) => (s6, .error e)
          | (s6, .ok elseBranch) =>
              (s6, .ok (.ifS condition thenBranch (.someS elseBranch) line))
      | (s5, false) => (s5, .ok (.ifS condition thenBranch .noneS line))

/-- `Parser._while_statement` (after `while`). -/
def pWhileStatement : Nat → PState → PRes Stmt
  | 0, s => (s, .error .noFuel)
  | fuel + 1, s =>
      let line := (prevTok s).line
      match consumeTok s .LPAREN "Expected '(' after 'while'." with
      | (s1, .error e) => (s1, .error e)
      | (s1, .ok _) =>
      match pExpression fuel s1 with
      | (s2, .error e) => (s2, .error e)
      | (s2, .ok condition) =>
      match consumeTok s2 .RPAREN "Expected ')' after while condition." with
      | (s3, .error e) => (s3, .error e)
      | (s3, .ok _) =>
      match pStatement fuel s3 with
      | (s4, .error e) => (s4, .error e)
      | (s4, .ok body) => (s4, .ok (.whileS condition body line))

/-- `Parser._block` (after `{`). -/
def pBlock : Nat → PState → PRes OStmtList
  | 0, s => (s, .error .noFuel)
  | fuel + 1, s =>
      if !(checkTok s .RBRACE) && !(isAtEnd s) then
        match pDeclaration fuel s with
        | (s1, .error e) => (s1, .error e)
        | (s1, .ok st) =>
            match pBlock fuel s1 with
            | (s2, .error e) => (s2, .error e)
            | (s2, .ok rest) => (s2, .ok (.cons st rest))
      else
        match consumeTok s .RBRACE "Expected '\x7d' after block." with
        | (s1, .error e) => (s1, .error e)
        | (s1, .ok _) => (s1, .ok .nil)

/-- `Parser._print_statement` (after `print`). -/
def pPrintStatement : Nat → PState → PRes Stmt
  | 0, s => (s, .error .noFuel)
  | fuel + 1, s =>
      let line := (prevTok s).line
      match pExpression fuel s with
      | (s1, .error e) => (s1, .error e)
      | (s1, .ok e) =>
          match consumeTok s1 .SEMICOLON "Expected ';' after value." with
          | (s2, .error er) => (s2, .error er)
          | (s2, .ok _) => (s2, .ok (.printS e line))

/-- `Parser._expression_statement`. -/
def pExpressionStatement : Nat → PState → PRes Stmt
  | 0, s => (s, .error .noFuel)
  | fuel + 1, s =>
      match pExpression fuel s with
      | (s1, .error e) => (s1, .error e)
      | (s1, .ok e) =>
          let line := (prevTok s1).line
          match consumeTok s1 .SEMICOLON "Expected ';' after expression." with
          | (s2, .error er) => (s2, .error er)
          | (s2, .ok _) => (s2, .ok (.expression e line))

/-- `Parser._expression`. -/
def pExpression : Nat → PState → PRes Expr
  | 0, s => (s, .error .noFuel)
  | fuel + 1, s => pAssignment fuel s

/-- `Parser._assignment` (lines 207-222): parse the left-hand side, and
on `=` parse the right-hand side recursively; a non-identifier target
reports "Invalid assignment target." *without raising* and returns the
left-hand side. -/
def pAssignment : Nat → PState → PRes Expr
  | 0, s => (s, .error .noFuel)
  | fuel + 1, s =>
      match pLogicOr fuel s with
      | (s1, .error e) => (s1, .error e)
      | (s1, .ok expr) =>
          match matchTok [.EQUALS] s1 with
          | (s2, true) =>
              let equalsToken := prevTok s2
              match pAssignment fuel s2 with
              | (s3, .error e) => (s3, .error e)
              | (s3, .ok value) =>
                  match expr with
                  | .variableExpr nameToken _ =>
                      (s3, .ok (.assign nameToken value equalsToken.line))
                  | _ =>
                      (reportError s3 "Invalid assignment target.", .ok expr)
          | (s2, false) => (s2, .ok expr)

/-- `Parser._logic_or`. -/
def pLogicOr : Nat → PState → PRes Expr
  | 0, s => (s, .error .noFuel)
  | fuel + 1, s =>
      match pLogicAnd fuel s with
      | (s1, .error e) => (s1, .error e)
      | (s1, .ok expr) => pLogicOrLoop fuel expr s1

def pLogicOrLoop : Nat → Expr → PState → PRes Expr
  | 0, _, s => (s, .error .noFuel)
  | fuel + 1, expr, s =>
      match matchTok [.OR] s with
      | (s1, false) => (s1, .ok expr)
      | (s1, true) =>
          let operator := prevTok s1
          match pLogicAnd fuel s1 with
          | (s2, .error e) => (s2, .error e)
          | (s2, .ok right) =>
              pLogicOrLoop fuel (.logical expr operator right operator.line) s2

/-- `Parser._logic_and`. -/
def pLogicAnd : Nat → PState → PRes Expr
  | 0, s => (s, .error .noFuel)
  | fuel + 1, s =>
      match pEquality fuel s with
      | (s1, .error e) => (s1, .error e)
      | (s1, .ok expr) => pLogicAndLoop fuel expr s1

def pLogicAndLoop : Nat → Expr → PState → PRes Expr
  | 0, _, s => (s, .error .noFuel)
  | fuel + 1, expr, s =>
      match matchTok [.AND] s with
      | (s1, false) => (s1, .ok expr)
      | (s1, true) =>
          let operator := prevTok s1
          match pEquality fuel s1 with
          | (s2, .error e) => (s2, .error e)
          | (s2, .ok right) =>
              pLogicAndLoop fuel (.logical expr operator right operator.line) s2

/-- `Parser._equality`. -/
def pEquality : Nat → PState → PRes Expr
  | 0, s => (s, .error .noFuel)
  | fuel + 1, s =>
      match pComparison fuel s with
      | (s1, .error e) => (s1, .error e)
      | (s1, .ok expr) => pEqualityLoop fuel expr s1

def pEqualityLoop : Nat → Expr → PState → PRes Expr
  | 0, _, s => (s, .error .noFuel)
  | fuel + 1, expr, s =>
      match matchTok [.BANG_EQUAL, .EQUAL_EQUAL] s with
      | (s1, false) => (s1, .ok expr)
      | (s1, true) =>
          let operator := prevTok s1
          match pComparison fuel s1 with
          | (s2, .error e) => (s2, .error e)
          | (s2, .ok right) =>
              pEqualityLoop fuel (.binary expr operator right operator.line) s2

/-- `Parser._comparison`. -/
def pComparison : Nat → PState → PRes Expr
  | 0, s => (s, .error .noFuel)
  | fuel + 1, s =>
      match pTerm fuel s with
      | (s1, .error e) => (s1, .error e)
      | (s1, .ok expr) => pComparisonLoop fuel expr s1

def pComparisonLoop : Nat → Expr → PState → PRes Expr
  | 0, _, s => (s, .error .noFuel)
  | fuel + 1, expr, s =>
      match matchTok [.GREATER, .GREATER_EQUAL, .LESS, .LESS_EQUAL] s with
      | (s1, false) => (s1, .ok expr)
      | (s1, true) =>
          let operator := prevTok s1
          match pTerm fuel s1 with
          | (s2, .error e) => (s2, .error e)
          | (s2, .ok right) =>
              pComparisonLoop fuel (.binary expr operator right operator.line) s2

/-- `Parser._term`. -/
def pTerm : Nat → PState → PRes Expr
  | 0, s => (s, .error .noFuel)
  | fuel + 1, s =>
      match pFactor fuel s with
      | (s1, .error e) => (s1, .error e)
      | (s1, .ok expr) => pTermLoop fuel expr s1

def pTermLoop : Nat → Expr → PState → PRes Expr
  | 0, _, s => (s, .error .noFuel)
  | fuel + 1, expr, s =>
      match matchTok [.MINUS, .PLUS] s with
      | (s1, false) => (s1, .ok expr)
      | (s1, true) =>
          let operator := prevTok s1
          match pFactor fuel s1 with
          | (s2, .error e) => (s2, .error e)
          | (s2, .ok right) =>
              pTermLoop fuel (.binary expr operator right operator.line) s2

/-- `Parser._factor`. -/
def pFactor : Nat → PState → PRes Expr
  | 0, s => (s, .error .noFuel)
  | fuel + 1, s =>
      match pUnary fuel s with
      | (s1, .error e) => (s1, .error e)
      | (s1, .ok expr) => pFactorLoop fuel expr s1

def pFactorLoop : Nat → Expr → PState → PRes Expr
  | 0, _, s => (s, .error .noFuel)
  | fuel + 1, expr, s =>
      match matchTok [.SLASH, .STAR] s with
      | (s1, false) => (s1, .ok expr)
      | (s1, true) =>
          let operator := prevTok s1
          match pUnary fuel s1 with
          | (s2, .error e) => (s2, .error e)
          | (s2, .ok right) =>
              pFactorLoop fuel (.binary expr operator right operator.line) s2

/-- `Parser._unary`. -/
def pUnary : Nat → PState → PRes Expr
  | 0, s => (s, .error .noFuel)
  | fuel + 1, s =>
      match matchTok [.BANG, .MINUS] s with
      | (s1, true) =>
          let operator := prevTok s1
          match pUnary fuel s1 with
          | (s2, .error e) => (s2, .error e)
          | (s2, .ok right) => (s2, .ok (.unary operator right operator.line))
      | (s1, false) => pCall fuel s1

/-- `Parser._call`. -/
def pCall : Nat → PState → PRes Expr
  | 0, s => (s, .error .noFuel)
  | fuel + 1, s =>
      match pPrimary fuel s with
      | (s1, .error e) => (s1, .error e)
      | (s1, .ok expr) => pCallLoop fuel expr s1

def pCallLoop : Nat → Expr → PState → PRes Expr
  | 0, _, s => (s, .error .noFuel)
  | fuel + 1, expr, s =>
      match matchTok [.LPAREN] s with
      | (s1, false) => (s1, .ok expr)
      | (s1, true) =>
          let line := (prevTok s1).line
          match pFinishCall fuel expr line s1 with
          | (s2, .error e) => (s2, .error e)
          | (s2, .ok expr2) => pCallLoop fuel expr2 s2

/-- `Parser._finish_call`. -/
def pFinishCall : Nat → Expr → Nat → PState → PRes Expr
  | 0, _, _, s => (s, .error .noFuel)
  | fuel + 1, callee, line, s =>
      let argsRes : PRes ExprList :=
        if checkTok s .RPAREN then (s, .ok .nil)
        else pArgsLoop fuel .nil s
      match argsRes with
      | (s1, .error e) => (s1, .error e)
      | (s1, .ok args) =>
          match consumeTok s1 .RPAREN "Expected ')' after arguments." with
          | (s2, .error e) => (s2, .error e)
          | (s2, .ok _) => (s2, .ok (.call callee args line))

def exprListAppend : ExprList → Expr → ExprList
  | .nil, e => .cons e .nil
  | .cons x tl, e => .cons x (exprListAppend tl e)

def exprListLength : ExprList → Nat
  | .nil => 0
  | .cons _ tl => 1 + exprListLength tl

/-- The argument loop of `_finish_call`. -/
def pArgsLoop : Nat → ExprList → PState → PRes ExprList
  | 0, _, s => (s, .error .noFuel)
  | fuel + 1, args, s =>
      let s := if exprListLength args ≥ 255 then
          reportError s "Cannot have more than 255 arguments." else s
      match pExpression fuel s with
      | (s1, .error e) => (s1, .error e)
      | (s1, .ok e) =>
          match matchTok [.COMMA] s1 with
          | (s2, false) => (s2, .ok (exprListAppend args e))
          | (s2, true) => pArgsLoop fuel (exprListAppend args e) s2

/-- `Parser._primary`. -/
def pPrimary : Nat → PState → PRes Expr
  | 0, s => (s, .error .noFuel)
  | fuel + 1, s =>
      match matchTok [.FALSE] s with
      | (s1, true) => (s1, .ok (.literal (.bool false) (prevTok s1).line))
      | (s1, false) =>
      match matchTok [.TRUE] s1 with
      | (s2, true) => (s2, .ok (.literal (.bool true) (prevTok s2).line))
      | (s2, false) =>
      match matchTok [.NIL] s2 with
      | (s3, true) => (s3, .ok (.literal .none (prevTok s3).line))
      | (s3, false) =>
      match matchTok [.NUMBER, .STRING] s3 with
      | (s4, true) => (s4, .ok (.literal (prevTok s4).value (prevTok s4).line))
      | (s4, false) =>
      match matchTok [.IDENTIFIER] s4 with
      | (s5, true) => (s5, .ok (.variableExpr (prevTok s5) (prevTok s5).line))
      | (s5, false) =>
      match matchTok [.LPAREN] s5 with
      | (s6, true) =>
          let line := (prevTok s6).line
          match pExpression fuel s6 with
          | (s7, .error e) => (s7, .error e)
          | (s7, .ok e) =>
              match consumeTok s7 .RPAREN "Expected ')' after expression." with
              | (s8, .error er) => (s8, .error er)
              | (s8, .ok _) => (s8, .ok (.grouping e line))
      | (s6, false) =>
          (reportError s6 "Error: Expected expression",
           .error (.parseErr "Error: Expected expression"))

end

/-- The `while` loop of `Parser.parse`. -/
def pParseLoop : Nat → PState → PRes OStmtList
  | 0, s => (s, .error .noFuel)
  | fuel + 1, s =>
      if isAtEnd s then (s, .ok .nil)
      else
        match pDeclaration fuel s with
        | (s1, .error e) => (s1, .error e)
        | (s1, .ok st) =>
            match pParseLoop fuel s1 with
            | (s2, .error e) => (s2, .error e)
            | (s2, .ok rest) => (s2, .ok (.cons st rest))

/-- `Parser.parse` (lines 59-67): loop over declarations until `EOF` and
return a `Program` — unconditionally; `had_error` is never consulted and
`None` is never returned. -/
def pParse (fuel : Nat) (s : PState) : PRes PyProgram :=
  match pParseLoop fuel s with
  | (s1, .ok stmts) => (s1, .ok ⟨stmts, (peekTok s1).line⟩)
  | (s1, .error e) => (s1, .error e)

/-- The token list of `1 +;` (the input of the repository's own
`test_parse_error`, which asserts `parser.parse()` returns `None`). -/
def exTokensC2 : List Tok :=
  [⟨.NUMBER, .int 1, 1⟩, ⟨.PLUS, .none, 1⟩, ⟨.SEMICOLON, .none, 1⟩,
   ⟨.EOF, .none, 1⟩]

/-- **C2.** The claim (with the spec, and the repo's own test
`test_parse_error`, which feeds `Parser.parse` exactly this token list
and asserts it returns `None`) says a parse that reported any error
yields a null program.  On `1 +;` the checked-in code neither reports
the error nor yields anything: the first `_declaration` does not see
`def`, so line 76 evaluates the nonexistent `TokenType.VAR` and the
parse dies with an uncaught `AttributeError` — `had_error` still false,
no message recorded, no program returned.  (Nor could a completed parse
ever yield `None`: `parse` has no `return None` and never consults
`had_error`.) -/
theorem claim_C2 :
    (pParse 20 (initPState exTokensC2)).2 = .error (.attrError "VAR") ∧
    (pParse 20 (initPState exTokensC2)).1.hadError = false ∧
    (pParse 20 (initPState exTokensC2)).1.errors = [] :=
  ⟨rfl, rfl, rfl⟩

/-- The token list of `1 = 2;`. -/
def exTokensC3 : List Tok :=
  [⟨.NUMBER, .int 1, 1⟩, ⟨.EQUALS, .none, 1⟩, ⟨.NUMBER, .int 2, 1⟩,
   ⟨.SEMICOLON, .none, 1⟩, ⟨.EOF, .none, 1⟩]

/-- Counterexample to **C3** as stated: on `1 = 2;` the `=` sits at token
index 1, the parser reports "Invalid assignment target." — but the
current position afterwards is 3, past the `=` *and* past the parsed
right-hand side, not "still at the `=`". -/
theorem claim_C3_counterexample :
    exTokensC3.getD 1 dummyEOF = ⟨.EQUALS, .none, 1⟩ ∧
    (pAssignment 20 (initPState exTokensC3)).1.errors =
      ["Invalid assignment target."] ∧
    (pAssignment 20 (initPState exTokensC3)).1.current = 3 ∧
    (pAssignment 20 (initPState exTokensC3)).1.current ≠ 1 :=
  ⟨rfl, rfl, rfl, by decide⟩

/-- **C3** (amended).  When the expression parsed to the left of `=` is
not a bare identifier, `_assignment` has already consumed the `=` (via
`_match`) and recursively parsed the whole right-hand side before the
check; it then reports "Invalid assignment target." *without raising*
and returns the left-hand expression, leaving the position wherever the
right-hand side ended — past the `=`, not at it. -/
theorem claim_C3 (fuel : Nat) (s s1 s2 : PState) (e v : Expr)
    (hlhs : pLogicOr fuel s = (s1, .ok e))
    (hnotvar : ∀ nameTok line, e ≠ .variableExpr nameTok line)
    (heq : checkTok s1 .EQUALS = true)
    (hrhs : pAssignment fuel (advanceTok s1) = (s2, .ok v)) :
    pAssignment (fuel + 1) s =
      (reportError s2 "Invalid assignment target.", .ok e) := by
  unfold pAssignment
  rw [hlhs]
  have hm : matchTok [.EQUALS] s1 = (advanceTok s1, true) := by
    simp [matchTok, heq]
  dsimp only
  rw [hm]
  dsimp only
  rw [hrhs]
  dsimp only
  cases e <;> first | rfl | exact absurd rfl (hnotvar _ _)

/-- Witness for C3 at `1 = 2;`. -/
theorem claim_C3_witness :
    pAssignment 20 (initPState exTokensC3) =
      (reportError ⟨exTokensC3, 3, false, []⟩ "Invalid assignment target.",
       .ok (.literal (.int 1) 1)) :=
  claim_C3 19 (initPState exTokensC3) ⟨exTokensC3, 1, false, []⟩
    ⟨exTokensC3, 3, false, []⟩ (.literal (.int 1) 1) (.literal (.int 2) 1)
    rfl (fun _ _ h => nomatch h) rfl rfl

/-! ## RogueScript compiler (`roguescript/compiler.py`)

The chunk (`bytecode.py`): an opcode/operand byte list, a parallel line
list, and a constant pool holding literal values and nested function
objects.  Opcode numbers are those of the `OpCode` enum
(`OP_PUSH_CONST = 0` … `OP_PRINT = 24`).  The compiler state carries the
chunk under construction plus the local-slot records (the declaring
token's value and scope depth) and the scope-depth counter. -/

mutual
inductive RSConst where
  | val (v : PyVal)
  | func (f : RSFunction)
  deriving Repr
inductive RSFunction where
  | mk (name : PyVal) (arity : Nat) (code : List Nat) (constants : RSConstList)
      (lines : List Nat)
  deriving Repr
inductive RSConstList where
  | nil
  | cons (c : RSConst) (tl : RSConstList)
  deriving Repr
end

def fnCode : RSFunction → List Nat
  | .mk _ _ c _ _ => c

def constListAppend : RSConstList → RSConst → RSConstList
  | .nil, c => .cons c .nil
  | .cons x tl, c => .cons x (constListAppend tl c)

def constListLength : RSConstList → Nat
  | .nil => 0
  | .cons _ tl => 1 + constListLength tl

structure CompSt where
  code : List Nat
  constants : RSConstList
  lines : List Nat
  locals : List (PyVal × Nat)
  scopeDepth : Nat
  deriving Repr

/-- `Chunk.write` via `Compiler._emit_byte`. -/
def emitByte (st : CompSt) (b : Nat) (line : Nat) : CompSt :=
  { st with code := st.code ++ [b], lines := st.lines ++ [line] }

def emitBytes (st : CompSt) (b1 b2 : Nat) (line : Nat) : CompSt :=
  emitByte (emitByte st b1 line) b2 line

/-- `Chunk.add_constant`: append, return the new index. -/
def addConstant (st : CompSt) (c : RSConst) : CompSt × Nat :=
  ({ st with constants := constListAppend st.constants c },
   constListLength st.constants)

/-- `Compiler._emit_constant`. -/
def emitConstant (st : CompSt) (v : PyVal) (line : Nat) : Except String CompSt :=
  let r := addConstant st (.val v)
  if r.2 > 255 then .error "Too many constants in one chunk."
  else .ok (emitBytes r.1 0 r.2 line)

/-- `Compiler._emit_jump`: opcode plus two `0xFF` placeholder bytes;
returns the offset of the placeholder. -/
def emitJump (st : CompSt) (op line : Nat) : CompSt × Nat :=
  let st1 := emitByte (emitByte (emitByte st op line) 0xFF line) 0xFF line
  (st1, st1.code.length - 2)

/-- `Compiler._patch_jump`. -/
def patchJump (st : CompSt) (offset : Nat) : Except String CompSt :=
  let jump := st.code.length - offset - 2
  if jump > 0xFFFF then .error "Jump offset too large (over 65535 bytes)."
  else .ok { st with
    code := (st.code.set offset ((jump >>> 8) &&& 0xFF)).set (offset + 1)
      (jump &&& 0xFF) }

/-- `Compiler._emit_loop` (`OP_LOOP = 21`). -/
def emitLoop (st : CompSt) (loopStart line : Nat) : Except String CompSt :=
  let st1 := emitByte st 21 line
  let jump := st1.code.length - loopStart + 2
  if jump > 0xFFFF then .error "Loop body too large."
  else .ok (emitByte (emitByte st1 ((jump >>> 8) &&& 0xFF) line) (jump &&& 0xFF) line)

/-- `Compiler._emit_return`: `OP_NIL; OP_RETURN`. -/
def emitReturnOp (st : CompSt) (line : Nat) : CompSt :=
  emitByte (emitByte st 1 line) 23 line

/-- `Compiler._add_local`: reject a duplicate name in the same scope. -/
def addLocal (st : CompSt) (name : Tok) : Except String CompSt :=
  if (st.locals.reverse.takeWhile (fun l => st.scopeDepth ≤ l.2)).any
      (fun l => l.1 = name.value) then
    .error "Already a variable with this name in this scope."
  else .ok { st with locals := st.locals ++ [(name.value, st.scopeDepth)] }

/-- `Compiler._resolve_local`: topmost (last) matching slot. -/
def resolveLocal (st : CompSt) (name : Tok) : Option Nat :=
  match st.locals.reverse.findIdx? (fun l => l.1 = name.value) with
  | some j => some (st.locals.length - 1 - j)
  | none => none

/-- `Compiler._identifier_constant`. -/
def identifierConstant (st : CompSt) (name : Tok) : Except String (CompSt × Nat) :=
  let r := addConstant st (.val name.value)
  if r.2 > 255 then .error "Too many global variables."
  else .ok r

/-- `Compiler._end_scope`: drop the locals of the closed scope and emit
one `OP_POP` per dropped local. -/
def endScope (st : CompSt) (line : Nat) : CompSt :=
  let depth := st.scopeDepth - 1
  let count := (st.locals.reverse.takeWhile (fun l => depth < l.2)).length
  let st1 : CompSt :=
    { st with
        scopeDepth := depth
        locals := st.locals.take (st.locals.length - count) }
  (List.range count).foldl (fun s _ => emitByte s 4 line) st1

/-- The parameter registration of `visit_def_stmt`. -/
def addParams : CompSt → List Tok → Except String CompSt
  | st, [] => .ok st
  | st, p :: ps => do
      let st1 ← addLocal st p
      addParams st1 ps

mutual

/-- The expression visitors of `compiler.py` (lines 322-428). -/
def compileExpr : CompSt → Expr → Except String CompSt
  | st, .binary left op right line => do
      let st1 ← compileExpr st left
      let st2 ← compileExpr st1 right
      match op.type with
      | .PLUS => .ok (emitByte st2 10 line)
      | .MINUS => .ok (emitByte st2 11 line)
      | .STAR => .ok (emitByte st2 12 line)
      | .SLASH => .ok (emitByte st2 13 line)
      | .EQUAL_EQUAL => .ok (emitByte st2 14 line)
      | .BANG_EQUAL => .ok (emitByte (emitByte st2 14 line) 18 line)
      | .GREATER => .ok (emitByte st2 15 line)
      | .GREATER_EQUAL => .ok (emitByte (emitByte st2 16 line) 18 line)
      | .LESS => .ok (emitByte st2 16 line)
      | .LESS_EQUAL => .ok (emitByte (emitByte st2 15 line) 18 line)
      | _ => .error "Unknown binary operator."
  | st, .unary op right line => do
      let st1 ← compileExpr st right
      match op.type with
      | .MINUS => .ok (emitByte st1 17 line)
      | .BANG => .ok (emitByte st1 18 line)
      | _ => .error "Unknown unary operator."
  | st, .literal v line =>
      match v with
      | .none => .ok (emitByte st 1 line)
      | .bool true => .ok (emitByte st 2 line)
      | .bool false => .ok (emitByte st 3 line)
      | v => emitConstant st v line
  | st, .grouping e _ => compileExpr st e
  | st, .variableExpr name line =>
      (match resolveLocal st name with
      | some idx => .ok (emitBytes st 8 idx line)
      | none =>
          match identifierConstant st name with
          | .error e => .error e
          | .ok r => .ok (emitBytes r.1 6 r.2 line))
  | st, .assign name value line => do
      let st1 ← compileExpr st value
      (match resolveLocal st1 name with
      | some idx => .ok (emitBytes st1 9 idx line)
      | none =>
          match identifierConstant st1 name with
          | .error e => .error e
          | .ok r => .ok (emitBytes r.1 7 r.2 line))
  | st, .logical left op right line => do
      let st1 ← compileExpr st left
      match op.type with
      | .OR => do
          let r1 := emitJump st1 20 line
          let r2 := emitJump r1.1 19 line
          let st4 ← patchJump r2.1 r1.2
          let st5 := emitByte st4 4 line
          let st6 ← compileExpr st5 right
          patchJump st6 r2.2
      | .AND => do
          let r1 := emitJump st1 20 line
          let st3 := emitByte r1.1 4 line
          let st4 ← compileExpr st3 right
          patchJump st4 r1.2
      | _ => .ok st1
  | st, .call callee args line => do
      let st1 ← compileExpr st callee
      let st2 ← compileExprList st1 args
      .ok (emitBytes st2 22 (exprListLength args) line)
termination_by structural _ e => e

def compileExprList : CompSt → ExprList → Except String CompSt
  | st, .nil => .ok st
  | st, .cons e tl => do
      let st1 ← compileExpr st e
      compileExprList st1 tl
termination_by structural _ l => l

/-- The statement visitors of `compiler.py` (lines 187-318). -/
def compileStmt : CompSt → Stmt → Except String CompSt
  | st, .expression e line => do
      let st1 ← compileExpr st e
      .ok (emitByte st1 4 line)
  | st, .printS e line => do
      let st1 ← compileExpr st e
      .ok (emitByte st1 24 line)
  | st, .varDecl name initializer line => do
      let st1 ← (match initializer with
        | some e => compileExpr st e
        | none => .ok (emitByte st 1 line))
      if st1.scopeDepth > 0 then
        addLocal st1 name
      else
        match identifierConstant st1 name with
        | .error e => .error e
        | .ok r => .ok (emitBytes r.1 5 r.2 line)
  | st, .block ss line => do
      let st1 := { st with scopeDepth := st.scopeDepth + 1 }
      let st2 ← compileOStmtList st1 ss
      .ok (endScope st2 line)
  | st, .ifS cond thenBranch elseBranch line => do
      let st1 ← compileExpr st cond
      let r1 := emitJump st1 20 line
      let st3 := emitByte r1.1 4 line
      let st4 ← compileStmt st3 thenBranch
      let r2 := emitJump st4 19 line
      let st6 ← patchJump r2.1 r1.2
      let st7 := emitByte st6 4 line
      let st8 ← (match elseBranch with
        | .someS e => compileStmt st7 e
        | .noneS => .ok st7)
      patchJump st8 r2.2
  | st, .whileS cond body line => do
      let loopStart := st.code.length
      let st1 ← compileExpr st cond
      let r1 := emitJump st1 20 line
      let st3 := emitByte r1.1 4 line
      let st4 ← compileStmt st3 body
      let st5 ← emitLoop st4 loopStart line
      let st6 ← patchJump st5 r1.2
      .ok (emitByte st6 4 line)
  | st, .defS name params body line => do
      let fc1 : CompSt := ⟨[], .nil, [], [(.str "", 0)], 1⟩
      let fc2 ← addParams fc1 params
      let fc3 ← (match body with
        | .block ss _ => compileOStmtList fc2 ss
        | _ => .error "AttributeError: function body is not a block")
      let fc4 := emitReturnOp fc3 line
      let fn : RSFunction := .mk name.value params.length fc4.code fc4.constants
        fc4.lines
      let r := addConstant st (.func fn)
      if r.2 > 255 then .error "Too many function constants."
      else
        let st2 := emitBytes r.1 0 r.2 line
        if st2.scopeDepth > 0 then addLocal st2 name
        else
          match identifierConstant st2 name with
          | .error e => .error e
          | .ok r2 => .ok (emitBytes r2.1 5 r2.2 line)
  | st, .returnS value line => do
      let st1 ← (match value with
        | some e => compileExpr st e
        | none => .ok (emitByte st 1 line))
      .ok (emitByte st1 23 line)
termination_by structural _ s => s

/-- Compiling the entry left behind by a failed declaration (`None` in
the statement list) is the Python `AttributeError` on `None.accept`. -/
def compileOStmt : CompSt → OStmt → Except String CompSt
  | _, .noneS => .error "AttributeError: NoneType has no attribute accept"
  | st, .someS s => compileStmt st s
termination_by structural _ s => s

def compileOStmtList : CompSt → OStmtList → Except String CompSt
  | st, .nil => .ok st
  | st, .cons s tl => do
      let st1 ← compileOStmt st s
      compileOStmtList st1 tl
termination_by structural _ l => l

end

/-- The `enumerate` loop of `Compiler.compile` (lines 59-68): every
statement but the last compiles normally; a last statement that is an
expression statement compiles *without* the trailing `OP_POP` and is
followed directly by `OP_RETURN`. -/
def compileTop : CompSt → OStmtList → Except String CompSt
  | st, .nil => .ok st
  | st, .cons s .nil =>
      (match s with
      | .someS (.expression e line) =>
          match compileExpr st e with
          | .error er => .error er
          | .ok st1 => .ok (emitByte st1 23 line)
      | _ => compileOStmt st s)
  | st, .cons s tl => do
      let st1 ← compileOStmt st s
      compileTop st1 tl
termination_by structural _ l => l

def lastOStmt : OStmtList → Option OStmt
  | .nil => none
  | .cons s .nil => some s
  | .cons _ tl => lastOStmt tl

def initCompSt : CompSt := ⟨[], .nil, [], [], 0⟩

/-- `Compiler.compile` (lines 48-82): run the loop, then close the chunk
with `OP_NIL; OP_RETURN` unless the last statement was an expression
statement; return the `<script>` function. -/
def compile (prog : PyProgram) : Except String RSFunction := do
  let st1 ← compileTop initCompSt prog.statements
  let st2 := (match lastOStmt prog.statements with
    | none => emitReturnOp st1 prog.line
    | some s =>
        match s with
        | .someS (.expression _ _) => st1
        | _ => emitReturnOp st1 prog.line)
  .ok (.mk (.str "<script>") 0 st2.code st2.constants st2.lines)

def ostmtListAppend : OStmtList → OStmt → OStmtList
  | .nil, s => .cons s .nil
  | .cons x tl, s => .cons x (ostmtListAppend tl s)

theorem lastOStmt_append : ∀ (init : OStmtList) (last : OStmt),
    lastOStmt (ostmtListAppend init last) = some last
  | .nil, _ => rfl
  | .cons _ .nil, _ => rfl
  | .cons _ (.cons y ys), last => lastOStmt_append (.cons y ys) last

theorem compileOStmtList_append : ∀ (init : OStmtList) (last : OStmt) (st : CompSt),
    compileOStmtList st (ostmtListAppend init last) =
      (match compileOStmtList st init with
       | .error e => .error e
       | .ok stP => compileOStmt stP last)
  | .nil, last, st => by
    show compileOStmtList st (OStmtList.cons last OStmtList.nil) = _
    simp only [compileOStmtList, bind, Except.bind]
    cases compileOStmt st last <;> rfl
  | .cons x tl, last, st => by
    show compileOStmtList st (OStmtList.cons x (ostmtListAppend tl last)) = _
    simp only [compileOStmtList, bind, Except.bind]
    cases hx : compileOStmt st x with
    | error e => rfl
    | ok st1 => exact compileOStmtList_append tl last st1

theorem compileTop_append : ∀ (init : OStmtList) (last : OStmt) (st : CompSt),
    compileTop st (ostmtListAppend init last) =
      (match compileOStmtList st init with
       | .error e => .error e
       | .ok stP =>
          (match last with
           | .someS (.expression e line) =>
              (match compileExpr stP e with
               | .error er => .error er
               | .ok st1 => .ok (emitByte st1 23 line))
           | _ => compileOStmt stP last))
  | .nil, last, st => by
    show compileTop st (OStmtList.cons last OStmtList.nil) = _
    rfl
  | .cons x tl, last, st => by
    obtain ⟨h, t, hcons⟩ : ∃ h t, ostmtListAppend tl last = .cons h t := by
      cases tl <;> exact ⟨_, _, rfl⟩
    show compileTop st (OStmtList.cons x (ostmtListAppend tl last)) = _
    rw [hcons]
    simp only [compileTop]
    rw [← hcons]
    simp only [compileOStmtList, bind, Except.bind]
    cases hx : compileOStmt st x with
    | error e => rfl
    | ok st1 => exact compileTop_append tl last st1

theorem bindReturnExtract (X : Except String CompSt) (L : Nat) (fn : RSFunction)
    (h : (do
      let st1 ← X
      Except.ok (RSFunction.mk (PyVal.str "<script>") 0 (emitReturnOp st1 L).code
        (emitReturnOp st1 L).constants (emitReturnOp st1 L).lines)) = .ok fn) :
    ∃ stQ, X = .ok stQ ∧ fnCode fn = stQ.code ++ [1, 23] := by
  cases hx : X with
  | error e => rw [hx] at h; simp [bind, Except.bind] at h
  | ok stQ =>
    rw [hx] at h
    simp only [bind, Except.bind, Except.ok.injEq] at h
    refine ⟨stQ, rfl, ?_⟩
    rw [← h]
    simp [fnCode, emitReturnOp, emitByte]

/-- **C9.** When `Compiler.compile` succeeds: an empty program compiles
to `OP_NIL; OP_RETURN`; a program whose last statement is an
expression-statement compiles the preceding statements, then the last
expression, then `OP_RETURN` immediately (no `OP_POP` in between, so the
expression's value is the script result); any other program's chunk is
the compiled statements followed by `OP_NIL; OP_RETURN`
(`OP_NIL = 1`, `OP_RETURN = 23`). -/
theorem claim_C9 (prog : PyProgram) (fn : RSFunction)
    (hok : compile prog = .ok fn) :
    (prog.statements = .nil → fnCode fn = [1, 23]) ∧
    (∀ init e line,
        prog.statements = ostmtListAppend init (.someS (.expression e line)) →
        ∃ stP stE, compileOStmtList initCompSt init = .ok stP ∧
          compileExpr stP e = .ok stE ∧
          fnCode fn = stE.code ++ [23]) ∧
    (∀ init last, prog.statements = ostmtListAppend init last →
        (∀ e line, last ≠ .someS (.expression e line)) →
        ∃ stP, compileOStmtList initCompSt prog.statements = .ok stP ∧
          fnCode fn = stP.code ++ [1, 23]) := by
  refine ⟨?_, ?_, ?_⟩
  · intro h
    unfold compile at hok
    rw [h] at hok
    simp only [compileTop, lastOStmt, bind, Except.bind, pure, Except.pure,
      Except.ok.injEq] at hok
    rw [← hok]
    rfl
  · intro init e line hstmts
    unfold compile at hok
    rw [hstmts, compileTop_append, lastOStmt_append] at hok
    cases hP : compileOStmtList initCompSt init with
    | error er => rw [hP] at hok; simp [bind, Except.bind] at hok
    | ok stP =>
      rw [hP] at hok
      dsimp only at hok
      cases hE : compileExpr stP e with
      | error er => rw [hE] at hok; simp [bind, Except.bind] at hok
      | ok stE =>
        rw [hE] at hok
        dsimp only at hok
        simp only [bind, Except.bind, pure, Except.pure, Except.ok.injEq] at hok
        refine ⟨stP, stE, rfl, hE, ?_⟩
        rw [← hok]
        rfl
  · intro init last hstmts hne
    unfold compile at hok
    rw [hstmts, compileTop_append, lastOStmt_append] at hok
    rw [hstmts, compileOStmtList_append]
    cases hP : compileOStmtList initCompSt init with
    | error er => rw [hP] at hok; simp [bind, Except.bind] at hok
    | ok stP =>
      rw [hP] at hok
      dsimp only at hok ⊢
      cases last with
      | noneS =>
        dsimp only at hok
        obtain ⟨stQ, hQ, hc⟩ := bindReturnExtract _ _ fn hok
        exact ⟨stQ, hQ, hc⟩
      | someS s =>
        cases s <;>
          first
          | exact absurd rfl (hne _ _)
          | (dsimp only at hok
             obtain ⟨stQ, hQ, hc⟩ := bindReturnExtract _ _ fn hok
             exact ⟨stQ, hQ, hc⟩)

def exProgC9 : PyProgram :=
  ⟨.cons (.someS (.printS (.literal (.int 5) 1) 1))
    (.cons (.someS (.expression (.literal (.int 7) 2) 2)) .nil), 2⟩

def exFnC9 : RSFunction :=
  .mk (.str "<script>") 0 [0, 0, 24, 0, 1, 23]
    (.cons (.val (.int 5)) (.cons (.val (.int 7)) .nil)) [1, 1, 1, 2, 2, 2]

/-- Witness for C9 at `print 5; 7;`: the chunk is
`PUSH_CONST 0; PRINT; PUSH_CONST 1; RETURN` with no pop before the
return. -/
theorem claim_C9_witness :
    (exProgC9.statements = .nil → fnCode exFnC9 = [1, 23]) ∧
    (∀ init e line,
        exProgC9.statements = ostmtListAppend init (.someS (.expression e line)) →
        ∃ stP stE, compileOStmtList initCompSt init = .ok stP ∧
          compileExpr stP e = .ok stE ∧
          fnCode exFnC9 = stE.code ++ [23]) ∧
    (∀ init last, exProgC9.statements = ostmtListAppend init last →
        (∀ e line, last ≠ .someS (.expression e line)) →
        ∃ stP, compileOStmtList initCompSt exProgC9.statements = .ok stP ∧
          fnCode exFnC9 = stP.code ++ [1, 23]) :=
  claim_C9 exProgC9 exFnC9 rfl

end RogueDex
